import Mathlib

/-!
Verification of the derived-metrics ETL framework of a financial data-warehouse
pipeline: the ETL lifecycle controller (`src/etl/base_etl.py`), the TTM
aggregation engine (`src/etl/ttm_calculation_etl.py`), the financial-ratio
engine (`src/etl/financial_ratio_etl.py`) and the market-metrics engine
(`src/etl/market_metrics_etl.py`).

Modelling conventions:
- Warehouse numeric columns are `Option ℚ` (SQL values are nullable); Python
  float arithmetic is modelled over `ℚ`, and `round(x, 2)` as rounding to the
  nearest multiple of 1/100.
- Timestamps are `ℕ` seconds; `ts::DATE` is division by 86400. A `DIM_DATE`
  date key is identified with the day number it denotes (the keying is
  order-preserving), and `DATEADD(month, -15, d)` is modelled as a fixed
  456-day span: both queries that use the lookback apply the identical
  expression, so every property proved here is insensitive to its exact value.
- SQL queries over the star schema become pure functions over lists of rows.
-/

namespace FinSpec

/-- Python `record.get(COL, 0) or 0` on a nullable numeric column: a SQL NULL
(and an explicit 0) collapse to 0. -/
def orZero : Option ℚ → ℚ
  | none => 0
  | some x => x

/-- Python `a or k` under float truthiness: `a` when it is present and
non-zero, otherwise `k`. -/
def truthyOr (a : Option ℚ) (k : ℚ) : ℚ :=
  match a with
  | none => k
  | some x => if x = 0 then k else x

/-- Python `round(q, 2)`: round to the nearest multiple of 1/100 (the
half-even tie rule of Python plays no role in any property proved here). -/
def round2 (q : ℚ) : ℚ :=
  ((Int.floor (q * 100 + 1 / 2) : ℤ) : ℚ) / 100

/-- SQL `SUM` over a (nullable) column: NULL values are ignored; the sum of an
all-NULL (or empty) column is NULL. -/
def sqlSum (xs : List (Option ℚ)) : Option ℚ :=
  if (xs.filterMap id).isEmpty then none else some (xs.filterMap id).sum

/-- `period_type` of a `FACT_FINANCIALS` row. -/
inductive PeriodType where
  | q1 | q2 | q3 | q4 | fy
deriving DecidableEq, Repr

/-- `ff.period_type IN ('Q1', 'Q2', 'Q3', 'Q4')`. -/
def PeriodType.isQuarterly : PeriodType → Bool
  | .q1 | .q2 | .q3 | .q4 => true
  | .fy => false

/-- A row of `ANALYTICS.FACT_FINANCIALS` (joined to its `DIM_DATE` fiscal
date, which the `fiscalDateKey` field denotes directly). `acceptedDate` is the
filing timestamp in seconds. -/
structure FinFact where
  financialKey : ℕ
  companyKey : ℕ
  fiscalDateKey : ℕ
  periodType : PeriodType
  acceptedDate : ℕ
  revenue : Option ℚ
  costOfRevenue : Option ℚ
  grossProfit : Option ℚ
  operatingExpenses : Option ℚ
  operatingIncome : Option ℚ
  netIncome : Option ℚ
  eps : Option ℚ
  epsDiluted : Option ℚ
  operatingCashFlow : Option ℚ
  investingCashFlow : Option ℚ
  financingCashFlow : Option ℚ
  freeCashFlow : Option ℚ
  capitalExpenditures : Option ℚ
  dividendsPaid : Option ℚ
  sharesOutstanding : Option ℚ
  totalAssets : Option ℚ
  currentAssets : Option ℚ
  totalLiabilities : Option ℚ
  currentLiabilities : Option ℚ
  totalEquity : Option ℚ
  cashAndEquivalents : Option ℚ
  totalDebt : Option ℚ
  netDebt : Option ℚ
deriving DecidableEq, Repr

/-- A row of `ANALYTICS.FACT_FINANCIAL_RATIOS` as built by
`FinancialRatioETL.transform` (source column names: `gross_margin`,
`operating_margin`, `profit_margin`, `roe`, `roa`, `current_ratio`,
`quick_ratio`, `debt_to_equity`, `debt_to_assets`, `asset_turnover`,
`book_value_per_share`, `revenue_per_share`). -/
structure RatioFact where
  financialKey : ℕ
  companyKey : ℕ
  calculationDateKey : ℕ
  grossMargin : Option ℚ
  operatingMargin : Option ℚ
  profitMargin : Option ℚ
  roe : Option ℚ
  roa : Option ℚ
  currentRat : Option ℚ
  quickRat : Option ℚ
  debtToEquity : Option ℚ
  debtToAssets : Option ℚ
  assetTurnover : Option ℚ
  bookValuePerShare : Option ℚ
  revenuePerShare : Option ℚ
deriving DecidableEq, Repr

/-- The per-record body of `FinancialRatioETL.transform`
(`src/etl/financial_ratio_etl.py` lines 148-225). Each `get(..., 0) or 0`
becomes `orZero`; each positivity guard and `round(..., 2)` is kept verbatim.
The `revenue_per_share` column is never set by this transform, so it loads as
NULL. -/
def mkRatioRecord (r : FinFact) : RatioFact :=
  let revenue := orZero r.revenue
  let totalEquity := orZero r.totalEquity
  let totalAssets := orZero r.totalAssets
  let currentLiabilities := orZero r.currentLiabilities
  let sharesOutstanding := orZero r.sharesOutstanding
  { financialKey := r.financialKey
    companyKey := r.companyKey
    calculationDateKey := r.fiscalDateKey
    grossMargin :=
      if 0 < revenue then some (round2 (orZero r.grossProfit / revenue * 100)) else none
    operatingMargin :=
      if 0 < revenue then some (round2 (orZero r.operatingIncome / revenue * 100)) else none
    profitMargin :=
      if 0 < revenue then some (round2 (orZero r.netIncome / revenue * 100)) else none
    roe :=
      if 0 < totalEquity then some (round2 (orZero r.netIncome / totalEquity * 100)) else none
    roa :=
      if 0 < totalAssets then some (round2 (orZero r.netIncome / totalAssets * 100)) else none
    currentRat :=
      if 0 < currentLiabilities then
        some (round2 (orZero r.currentAssets / currentLiabilities))
      else none
    quickRat :=
      if 0 < currentLiabilities then
        some (round2 ((orZero r.currentAssets - 0) / currentLiabilities))
      else none
    debtToEquity :=
      if 0 < totalEquity then some (round2 (orZero r.totalDebt / totalEquity)) else none
    debtToAssets :=
      if 0 < totalAssets then some (round2 (orZero r.totalDebt / totalAssets)) else none
    assetTurnover :=
      if 0 < totalAssets ∧ 0 < revenue then some (round2 (revenue / totalAssets)) else none
    bookValuePerShare :=
      if 0 < sharesOutstanding ∧ 0 < totalEquity then
        some (round2 (totalEquity / sharesOutstanding))
      else none
    revenuePerShare := none }

/-- `FinancialRatioETL.transform`: the per-record `try` body is pure total
arithmetic, so every input record yields exactly one ratio record. -/
def ratioTransform (raw : List FinFact) : List RatioFact :=
  raw.map mkRatioRecord

/-- Source name of a period type, as `fiscal_period` stores it. -/
def PeriodType.name : PeriodType → String
  | .q1 => "Q1"
  | .q2 => "Q2"
  | .q3 => "Q3"
  | .q4 => "Q4"
  | .fy => "FY"

/-- One row of the `MarketMetricsETL.extract` query: a daily price joined
(via `LEFT JOIN`) to the latest knowable quarterly fundamentals, that
quarter's ratio row, and the latest knowable TTM row. Columns the transform
never reads (symbol, sector, volume, accepted dates, `quarters_included`,
unused balance/cash-flow columns) are omitted. -/
structure MarketInput where
  priceKey : ℕ
  companyKey : ℕ
  dateKey : ℕ
  closePrice : Option ℚ
  financialKey : Option ℕ
  periodType : Option PeriodType
  quarterlyEpsDiluted : Option ℚ
  totalDebt : Option ℚ
  cashAndEquivalents : Option ℚ
  quarterlyShares : Option ℚ
  quarterlyRevenuePerShare : Option ℚ
  bookValuePerShare : Option ℚ
  ttmRevenue : Option ℚ
  ttmNetIncome : Option ℚ
  ttmEpsDiluted : Option ℚ
  ttmOperatingIncome : Option ℚ
  ttmDividendsPaid : Option ℚ
  ttmShares : Option ℚ
  ttmTotalDebt : Option ℚ
  ttmCash : Option ℚ
deriving DecidableEq, Repr

/-- A row of `ANALYTICS.FACT_MARKET_METRICS` as built by
`MarketMetricsETL.transform` (source column names: `market_cap`,
`enterprise_value`, `pe_ratio`, `pe_ratio_ttm`, `pb_ratio`, `ps_ratio`,
`ps_ratio_ttm`, `ev_to_revenue`, `ev_to_revenue_ttm`, `ev_to_ebitda`,
`ev_to_ebit`, `dividend_yield`, `payout_ratio`, `peg_ratio`). -/
structure MetricFact where
  companyKey : ℕ
  dateKey : ℕ
  financialKey : Option ℕ
  closePrice : Option ℚ
  fiscalPeriod : String
  marketCap : Option ℚ
  enterpriseValue : Option ℚ
  peQ : Option ℚ
  peTtm : Option ℚ
  pbR : Option ℚ
  psQ : Option ℚ
  psTtm : Option ℚ
  evToRevenue : Option ℚ
  evToRevenueTtm : Option ℚ
  evToEbitda : Option ℚ
  evToEbit : Option ℚ
  dividendYield : Option ℚ
  payoutPct : Option ℚ
  pegR : Option ℚ
deriving DecidableEq, Repr

/-- The per-record body of `MarketMetricsETL.transform`
(`src/etl/market_metrics_etl.py` lines 229-347). `float(get(C, 0) or 0)`
becomes `orZero`; the `a or b or 0` column-preference chains become nested
`truthyOr`; `metric_record.get('enterprise_value') and ... > 0` is the match
on the (rounded) enterprise value with Python truthiness of `0.0`. -/
def mkMetricRecord (r : MarketInput) : MetricFact :=
  let closePrice := orZero r.closePrice
  let shares := truthyOr r.ttmShares (truthyOr r.quarterlyShares 0)
  let marketCapRaw := closePrice * shares
  let hasCap : Prop := 0 < closePrice ∧ 0 < shares
  let enterpriseValue : Option ℚ :=
    if hasCap then
      some (round2 (marketCapRaw + truthyOr r.ttmTotalDebt (truthyOr r.totalDebt 0) -
        truthyOr r.ttmCash (truthyOr r.cashAndEquivalents 0)))
    else none
  let quarterlyEps := orZero r.quarterlyEpsDiluted
  let ttmEps := orZero r.ttmEpsDiluted
  let bookValuePerShare := orZero r.bookValuePerShare
  let quarterlyRevenuePerShare := orZero r.quarterlyRevenuePerShare
  let ttmRevenue := orZero r.ttmRevenue
  let ttmOperatingIncome := orZero r.ttmOperatingIncome
  let ttmDividends := orZero r.ttmDividendsPaid
  let ttmNetIncome := orZero r.ttmNetIncome
  { companyKey := r.companyKey
    dateKey := r.dateKey
    financialKey := r.financialKey
    closePrice := r.closePrice
    fiscalPeriod := match r.periodType with
      | some p => p.name
      | none => "TTM"
    marketCap := if hasCap then some (round2 marketCapRaw) else none
    enterpriseValue := enterpriseValue
    peQ := if 0 < quarterlyEps then some (round2 (closePrice / quarterlyEps)) else none
    peTtm := if 0 < ttmEps then some (round2 (closePrice / ttmEps)) else none
    pbR := if 0 < bookValuePerShare then some (round2 (closePrice / bookValuePerShare)) else none
    psQ :=
      if 0 < quarterlyRevenuePerShare then
        some (round2 (closePrice / quarterlyRevenuePerShare))
      else none
    psTtm :=
      if 0 < ttmRevenue ∧ 0 < shares then
        some (round2 (closePrice / (ttmRevenue / shares)))
      else none
    evToRevenue :=
      match enterpriseValue with
      | some ev =>
        if 0 < ev then
          if 0 < quarterlyRevenuePerShare ∧ 0 < shares then
            some (round2 (ev / (quarterlyRevenuePerShare * shares)))
          else none
        else none
      | none => none
    evToRevenueTtm :=
      match enterpriseValue with
      | some ev =>
        if 0 < ev then
          if 0 < ttmRevenue then some (round2 (ev / ttmRevenue)) else none
        else none
      | none => none
    evToEbitda :=
      match enterpriseValue with
      | some ev =>
        if 0 < ev then
          if 0 < ttmOperatingIncome then some (round2 (ev / ttmOperatingIncome)) else none
        else none
      | none => none
    evToEbit :=
      match enterpriseValue with
      | some ev =>
        if 0 < ev then
          if 0 < ttmOperatingIncome then some (round2 (ev / ttmOperatingIncome)) else none
        else none
      | none => none
    dividendYield :=
      if 0 < closePrice ∧ ttmDividends < 0 ∧ 0 < shares then
        some (round2 (|ttmDividends| / shares / closePrice * 100))
      else none
    payoutPct :=
      if 0 < ttmNetIncome ∧ ttmDividends < 0 then
        some (round2 (|ttmDividends| / ttmNetIncome * 100))
      else none
    pegR := none }

/-- `MarketMetricsETL.transform`: the per-record `try` body is pure total
arithmetic, so every input record yields exactly one metric record. -/
def metricsTransform (raw : List MarketInput) : List MetricFact :=
  raw.map mkMetricRecord

/-- `accepted_date::DATE`: the calendar day of a timestamp. -/
def tsDate (t : ℕ) : ℕ := t / 86400

/-- Midnight of a calendar day, for SQL comparisons of a timestamp column
against a `DATE` value (the `DATE` is coerced to the start of the day). -/
def dayStart (d : ℕ) : ℕ := d * 86400

/-- `fiscal_date > DATEADD(month, -15, calculation_date)`: calendar month
arithmetic abstracted as a fixed 456-day span (≈ 15 months); discovery and
aggregation apply this identical expression. -/
def inLookback (fiscalDateKey calcDate : ℕ) : Bool :=
  (calcDate : ℤ) - 456 < (fiscalDateKey : ℤ)

/-- The `available_quarters` predicate shared by the discovery query's join
condition (`ttm_calculation_etl.py` lines 109-113) and the per-opportunity
aggregation CTE (lines 171-182): quarterly rows of the company accepted no
later than the triggering acceptance timestamp, with fiscal date inside the
15-month lookback from the calculation date. -/
def availableQuarters (fin : List FinFact) (ck acceptedTs calcDate : ℕ) : List FinFact :=
  fin.filter fun f =>
    f.companyKey == ck && f.periodType.isQuarterly &&
      decide (f.acceptedDate ≤ acceptedTs) && inLookback f.fiscalDateKey calcDate

/-- Descending insertion by fiscal date: the embedding of
`ROW_NUMBER() OVER (ORDER BY ff.fiscal_date_key DESC)`. -/
def insertDesc (f : FinFact) : List FinFact → List FinFact
  | [] => [f]
  | g :: rest =>
    if g.fiscalDateKey ≤ f.fiscalDateKey then f :: g :: rest else g :: insertDesc f rest

/-- Sort by fiscal date descending (ties ranked arbitrarily, as by
`ROW_NUMBER`). -/
def sortByFiscalDesc : List FinFact → List FinFact
  | [] => []
  | f :: rest => insertDesc f (sortByFiscalDesc rest)

/-- A TTM calculation opportunity: one row of `TTMCalculationETL.extract`
(the transform reads only `company_key`, `accepted_date` and
`calculation_date` from it). -/
structure TTMOpportunity where
  companyKey : ℕ
  acceptedDate : ℕ
  calculationDate : ℕ
deriving DecidableEq, Repr

/-- A row of `ANALYTICS.FACT_FINANCIALS_TTM` as built by
`TTMCalculationETL.transform` (source column names `ttm_revenue`, ...,
`latest_shares_outstanding`, ..., `quarters_included`). -/
structure TTMFact where
  companyKey : ℕ
  calculationDate : ℕ
  acceptedDate : ℕ
  quartersIncluded : ℕ
  oldestQuarter : Option ℕ
  newestQuarter : Option ℕ
  ttmRevenue : Option ℚ
  ttmCostOfRevenue : Option ℚ
  ttmGrossProfit : Option ℚ
  ttmOperatingExpenses : Option ℚ
  ttmOperatingIncome : Option ℚ
  ttmNetIncome : Option ℚ
  ttmEps : Option ℚ
  ttmEpsDiluted : Option ℚ
  ttmOperatingCashFlow : Option ℚ
  ttmInvestingCashFlow : Option ℚ
  ttmFinancingCashFlow : Option ℚ
  ttmFreeCashFlow : Option ℚ
  ttmCapitalExpenditures : Option ℚ
  ttmDividendsPaid : Option ℚ
  latestSharesOutstanding : Option ℚ
  latestTotalAssets : Option ℚ
  latestCurrentAssets : Option ℚ
  latestTotalLiabilities : Option ℚ
  latestCurrentLiabilities : Option ℚ
  latestTotalEquity : Option ℚ
  latestCashAndEquivalents : Option ℚ
  latestTotalDebt : Option ℚ
  latestNetDebt : Option ℚ
deriving DecidableEq, Repr

/-- `WHERE quarter_rank <= 4` over the ranked available quarters: the 4 most
recent (by fiscal date) quarterly rows available as of the opportunity. -/
def contributingQuarters (fin : List FinFact) (o : TTMOpportunity) : List FinFact :=
  (sortByFiscalDesc (availableQuarters fin o.companyKey o.acceptedDate o.calculationDate)).take 4

/-- `MAX(CASE WHEN quarter_rank = 1 THEN c END)`: the rank-1 (most recent)
row's value of a column, NULL when no row qualifies. -/
def rank1Field (qs : List FinFact) (g : FinFact → Option ℚ) : Option ℚ :=
  match qs with
  | [] => none
  | q :: _ => g q

/-- The TTM record `TTMCalculationETL.transform` builds for one opportunity
(`ttm_calculation_etl.py` lines 170-281). The aggregate query always returns
exactly one row (flow columns as `SUM`, stock columns from the rank-1 row,
`COUNT(*)` as `quarters_used`), and the transform appends the record
unconditionally — it never re-checks that 4 quarters were found. -/
def mkTTMRecord (fin : List FinFact) (o : TTMOpportunity) : TTMFact :=
  let qs := contributingQuarters fin o
  { companyKey := o.companyKey
    calculationDate := o.calculationDate
    acceptedDate := o.acceptedDate
    quartersIncluded := qs.length
    oldestQuarter := (qs.map (·.fiscalDateKey)).min?
    newestQuarter := (qs.map (·.fiscalDateKey)).max?
    ttmRevenue := sqlSum (qs.map (·.revenue))
    ttmCostOfRevenue := sqlSum (qs.map (·.costOfRevenue))
    ttmGrossProfit := sqlSum (qs.map (·.grossProfit))
    ttmOperatingExpenses := sqlSum (qs.map (·.operatingExpenses))
    ttmOperatingIncome := sqlSum (qs.map (·.operatingIncome))
    ttmNetIncome := sqlSum (qs.map (·.netIncome))
    ttmEps := sqlSum (qs.map (·.eps))
    ttmEpsDiluted := sqlSum (qs.map (·.epsDiluted))
    ttmOperatingCashFlow := sqlSum (qs.map (·.operatingCashFlow))
    ttmInvestingCashFlow := sqlSum (qs.map (·.investingCashFlow))
    ttmFinancingCashFlow := sqlSum (qs.map (·.financingCashFlow))
    ttmFreeCashFlow := sqlSum (qs.map (·.freeCashFlow))
    ttmCapitalExpenditures := sqlSum (qs.map (·.capitalExpenditures))
    ttmDividendsPaid := sqlSum (qs.map (·.dividendsPaid))
    latestSharesOutstanding := rank1Field qs (·.sharesOutstanding)
    latestTotalAssets := rank1Field qs (·.totalAssets)
    latestCurrentAssets := rank1Field qs (·.currentAssets)
    latestTotalLiabilities := rank1Field qs (·.totalLiabilities)
    latestCurrentLiabilities := rank1Field qs (·.currentLiabilities)
    latestTotalEquity := rank1Field qs (·.totalEquity)
    latestCashAndEquivalents := rank1Field qs (·.cashAndEquivalents)
    latestTotalDebt := rank1Field qs (·.totalDebt)
    latestNetDebt := rank1Field qs (·.netDebt) }

/-- `TTMCalculationETL.transform`: one TTM record per opportunity (the
aggregate query returns a row for every opportunity, so none is skipped). -/
def ttmTransform (fin : List FinFact) (opps : List TTMOpportunity) : List TTMFact :=
  opps.map (mkTTMRecord fin)

/-- The `calculation_dates` CTE: distinct (company, acceptance timestamp)
pairs of quarterly rows. -/
def calculationDates (fin : List FinFact) : List (ℕ × ℕ) :=
  ((fin.filter fun f => f.periodType.isQuarterly).map fun f =>
    (f.companyKey, f.acceptedDate)).dedup

/-- The `ttm_opportunities` CTE: a calculation date qualifies when at least 4
distinct fiscal dates are available as of it
(`HAVING COUNT(DISTINCT qd.fiscal_date_key) >= 4`). -/
def ttmOpportunities (fin : List FinFact) : List TTMOpportunity :=
  ((calculationDates fin).map fun p =>
    ({ companyKey := p.1, acceptedDate := p.2, calculationDate := tsDate p.2 } :
      TTMOpportunity)).filter fun o =>
    4 ≤ ((availableQuarters fin o.companyKey o.acceptedDate o.calculationDate).map
      (·.fiscalDateKey)).dedup.length

/-- The anti-join of `TTMCalculationETL.extract` against existing TTM rows:
`(company_key, calculation_date)` already computed. -/
def ttmPairExists (ttm : List TTMFact) (ck cd : ℕ) : Bool :=
  ttm.any fun t => t.companyKey == ck && t.calculationDate == cd

/-- A row of `ANALYTICS.FACT_DAILY_PRICES` (joined to its `DIM_DATE` day,
denoted directly by `priceDate`). -/
structure PriceFact where
  priceKey : ℕ
  companyKey : ℕ
  dateKey : ℕ
  priceDate : ℕ
  closePrice : Option ℚ
deriving DecidableEq, Repr

/-- The warehouse tables the three derived-metrics engines read and write.
Dimension tables are modelled as total (every key resolves). -/
structure Warehouse where
  factFinancials : List FinFact
  factFinancialsTTM : List TTMFact
  factRatios : List RatioFact
  factDailyPrices : List PriceFact
  factMarketMetrics : List MetricFact
deriving Repr

/-- `TTMCalculationETL.extract` (lines 52-141, `symbols=None`): discovered
opportunities minus those whose `(company_key, calculation_date)` already has
a TTM row. -/
def ttmExtract (w : Warehouse) : List TTMOpportunity :=
  (ttmOpportunities w.factFinancials).filter fun o =>
    !(ttmPairExists w.factFinancialsTTM o.companyKey o.calculationDate)

/-- `TTMCalculationETL.run` (`symbols=None`): extract, short-circuit on empty,
transform, bulk-insert into `FACT_FINANCIALS_TTM`. Returns the updated
warehouse and the number of rows loaded. -/
def ttmRun (w : Warehouse) : Warehouse × ℕ :=
  let opps := ttmExtract w
  if opps.isEmpty then (w, 0)
  else
    let recs := ttmTransform w.factFinancials opps
    ({ w with factFinancialsTTM := w.factFinancialsTTM ++ recs }, recs.length)

/-- The `NOT EXISTS` anti-join of `FinancialRatioETL.extract`: a ratio row for
this `financial_key` already exists. -/
def ratioExists (ratios : List RatioFact) (fk : ℕ) : Bool :=
  ratios.any fun t => t.financialKey == fk

/-- `FinancialRatioETL.extract` (lines 55-127, no symbol/date filters): all
fundamentals rows without a ratio row. -/
def ratioExtract (w : Warehouse) : List FinFact :=
  w.factFinancials.filter fun f => !(ratioExists w.factRatios f.financialKey)

/-- `FinancialRatioETL.run` (no filters): extract, short-circuit on empty,
transform, bulk-insert into `FACT_FINANCIAL_RATIOS`. -/
def ratioRun (w : Warehouse) : Warehouse × ℕ :=
  let raw := ratioExtract w
  if raw.isEmpty then (w, 0)
  else
    let recs := ratioTransform raw
    ({ w with factRatios := w.factRatios ++ recs }, recs.length)

/-- Of two fundamentals rows, the one accepted later (the
`FIRST_VALUE(...) OVER (ORDER BY accepted_date DESC)` pick; ties resolved
deterministically here where the window function leaves them unspecified). -/
def laterAcceptedFin (a b : FinFact) : FinFact :=
  if a.acceptedDate < b.acceptedDate then b else a

/-- The `latest_quarterly` CTE: the quarterly fundamentals row of the
company with the greatest `accepted_date <= price_date`. -/
def latestQuarterlyFin (fin : List FinFact) (p : PriceFact) : Option FinFact :=
  match fin.filter fun f =>
      f.companyKey == p.companyKey && f.periodType.isQuarterly &&
        decide (f.acceptedDate ≤ dayStart p.priceDate) with
  | [] => none
  | f :: fs => some (fs.foldl laterAcceptedFin f)

/-- Of two TTM rows, the one accepted later. -/
def laterAcceptedTTM (a b : TTMFact) : TTMFact :=
  if a.acceptedDate < b.acceptedDate then b else a

/-- The `latest_ttm` CTE: the TTM row of the company with the greatest
`accepted_date <= price_date`. -/
def latestTTMFact (ttm : List TTMFact) (p : PriceFact) : Option TTMFact :=
  match ttm.filter fun t =>
      t.companyKey == p.companyKey && decide (t.acceptedDate ≤ dayStart p.priceDate) with
  | [] => none
  | t :: ts => some (ts.foldl laterAcceptedTTM t)

/-- The ratio row joined by `financial_key`. -/
def ratioFor (ratios : List RatioFact) (fk : ℕ) : Option RatioFact :=
  ratios.find? fun t => t.financialKey == fk

/-- One output row of the `MarketMetricsETL.extract` query for a daily price:
the price columns plus the `LEFT JOIN`ed latest quarterly fundamentals, that
quarter's ratio row, and the latest TTM row. -/
def mkMarketInput (w : Warehouse) (p : PriceFact) : MarketInput :=
  let lq := latestQuarterlyFin w.factFinancials p
  let lt := latestTTMFact w.factFinancialsTTM p
  let fr := match lq with
    | some f => ratioFor w.factRatios f.financialKey
    | none => none
  { priceKey := p.priceKey
    companyKey := p.companyKey
    dateKey := p.dateKey
    closePrice := p.closePrice
    financialKey := lq.map (·.financialKey)
    periodType := lq.map (·.periodType)
    quarterlyEpsDiluted := lq.bind (·.epsDiluted)
    totalDebt := lq.bind (·.totalDebt)
    cashAndEquivalents := lq.bind (·.cashAndEquivalents)
    quarterlyShares := lq.bind (·.sharesOutstanding)
    quarterlyRevenuePerShare := fr.bind (·.revenuePerShare)
    bookValuePerShare := fr.bind (·.bookValuePerShare)
    ttmRevenue := lt.bind (·.ttmRevenue)
    ttmNetIncome := lt.bind (·.ttmNetIncome)
    ttmEpsDiluted := lt.bind (·.ttmEpsDiluted)
    ttmOperatingIncome := lt.bind (·.ttmOperatingIncome)
    ttmDividendsPaid := lt.bind (·.ttmDividendsPaid)
    ttmShares := lt.bind (·.latestSharesOutstanding)
    ttmTotalDebt := lt.bind (·.latestTotalDebt)
    ttmCash := lt.bind (·.latestCashAndEquivalents) }

/-- The `NOT EXISTS` anti-join of `MarketMetricsETL.extract`: a metric row for
this `(company_key, date_key)` already exists. -/
def metricPairExists (ms : List MetricFact) (ck dk : ℕ) : Bool :=
  ms.any fun m => m.companyKey == ck && m.dateKey == dk

/-- `MarketMetricsETL.extract` (lines 55-208, no filters): price rows that
have some financial data (`lq.financial_key IS NOT NULL OR lt.ttm_key IS NOT
NULL`) and no metric row yet. -/
def metricsExtract (w : Warehouse) : List MarketInput :=
  (w.factDailyPrices.filter fun p =>
    ((latestQuarterlyFin w.factFinancials p).isSome ||
      (latestTTMFact w.factFinancialsTTM p).isSome) &&
    !(metricPairExists w.factMarketMetrics p.companyKey p.dateKey)).map (mkMarketInput w)

/-- `MarketMetricsETL.run` (no filters): extract, short-circuit on empty,
transform, bulk-insert into `FACT_MARKET_METRICS`. -/
def metricsRun (w : Warehouse) : Warehouse × ℕ :=
  let raw := metricsExtract w
  if raw.isEmpty then (w, 0)
  else
    let recs := metricsTransform raw
    ({ w with factMarketMetrics := w.factMarketMetrics ++ recs }, recs.length)

/-! ### The ETL lifecycle controller (`src/etl/base_etl.py`)

`BaseETL.run` is modelled as a pure state machine over oracles for the three
abstract phases: `extract` as a map from attempt number to outcome, `transform`
as a pure map from records to named layers (the source treats it as
deterministic and never retries it), and `load` as a map from a batch and an
attempt number to an outcome. Records are abstract identifiers (`ℕ`).
Real-time effects (`time.sleep`) and phase boundaries are recorded in an event
trace. Monitoring hooks, staging validation and result persistence are omitted:
the source catches and swallows every exception they raise, and they do not
alter the data flowing through the phases. -/

/-- `ETLStatus` of `base_etl.py` (`partialSuccess` models `PARTIAL`). -/
inductive ETLStatus where
  | pending | running | success | failed | partialSuccess
deriving DecidableEq, Repr

/-- The mutable fields of `ETLResult` that the lifecycle updates (timestamps
and free-form metadata omitted). -/
structure JobState where
  status : ETLStatus
  recordsExtracted : ℕ
  recordsTransformed : ℕ
  recordsLoaded : ℕ
  errors : List String
deriving DecidableEq, Repr

/-- Observable events of one `run()`: extract attempts, blocking sleeps, and
load attempts (batch position in emission order, attempt number). -/
inductive Ev where
  | extractAttempt (i : ℕ)
  | sleepFor (secs : ℕ)
  | loadAttempt (batchIdx attempt : ℕ)
deriving DecidableEq, Repr

/-- `BaseETL._extract_with_retry` (lines 231-242): the body of
`for attempt in range(max_retries)`, over the list of remaining attempt
numbers. A success returns immediately; a failure sleeps and continues unless
`attempt == max_retries - 1`, which re-raises. Falling through the whole loop
(possible only when the range is empty, i.e. `max_retries == 0`) returns `[]`. -/
def extractRetryLoop (f : ℕ → Except String (List ℕ)) (maxRetries retryDelay : ℕ) :
    List ℕ → Except String (List ℕ) × List Ev
  | [] => (.ok [], [])
  | attempt :: rest =>
    match f attempt with
    | .ok recs => (.ok recs, [.extractAttempt attempt])
    | .error e =>
      if attempt < maxRetries - 1 then
        let r := extractRetryLoop f maxRetries retryDelay rest
        (r.1, .extractAttempt attempt :: .sleepFor retryDelay :: r.2)
      else
        (.error e, [.extractAttempt attempt])

/-- `BaseETL._extract_with_retry` entry point. -/
def extractWithRetry (f : ℕ → Except String (List ℕ)) (maxRetries retryDelay : ℕ) :
    Except String (List ℕ) × List Ev :=
  extractRetryLoop f maxRetries retryDelay (List.range maxRetries)

/-- A load batch: a layer name and the records of one chunk. -/
abbrev Batch := String × List ℕ

/-- The inner `for attempt in range(self.max_retries)` of
`BaseETL._load_in_batches` (lines 298-311) for one batch: success breaks out
of the loop with the loaded count; a final-attempt failure re-raises. Falling
through (only when `max_retries == 0`) loads nothing for this batch. -/
def loadRetryLoop (loadF : Batch → ℕ → Except String ℕ) (maxRetries retryDelay : ℕ)
    (b : Batch) (idx : ℕ) : List ℕ → Except String ℕ × List Ev
  | [] => (.ok 0, [])
  | attempt :: rest =>
    match loadF b attempt with
    | .ok n => (.ok n, [.loadAttempt idx attempt])
    | .error e =>
      if attempt < maxRetries - 1 then
        let r := loadRetryLoop loadF maxRetries retryDelay b idx rest
        (r.1, .loadAttempt idx attempt :: .sleepFor retryDelay :: r.2)
      else
        (.error e, [.loadAttempt idx attempt])

/-- Split one layer's records into `batch_size` chunks
(`records[i:i + self.batch_size]`). The fuel argument (initially the list
length) makes the recursion structural; it is never exhausted when
`0 < size` (a zero `batch_size` is a `range` step error in the source). -/
def chunksGo (size : ℕ) : ℕ → List ℕ → List (List ℕ)
  | 0, _ => []
  | _, [] => []
  | fuel + 1, a :: rest => (a :: rest).take size :: chunksGo size fuel ((a :: rest).drop size)

/-- All chunks of a record list. -/
def chunks (size : ℕ) (l : List ℕ) : List (List ℕ) :=
  chunksGo size l.length l

/-- The batch sequence `_load_in_batches` walks: layers in emission order,
each split into chunks (an empty layer contributes no batches). -/
def mkBatches (batchSize : ℕ) (layers : List Batch) : List Batch :=
  layers.foldr (fun l acc => (chunks batchSize l.2).map (fun c => (l.1, c)) ++ acc) []

/-- The outer batch walk of `BaseETL._load_in_batches` (lines 286-313):
accumulate loaded counts; on a batch's final failure append
`"Failed to load batch: e"` to the error list and re-raise, abandoning all
later batches. -/
def loadBatchesGo (loadF : Batch → ℕ → Except String ℕ) (maxRetries retryDelay : ℕ) :
    List Batch → ℕ → ℕ → Except String ℕ × List Ev × List String
  | [], _, total => (.ok total, [], [])
  | b :: rest, idx, total =>
    match loadRetryLoop loadF maxRetries retryDelay b idx (List.range maxRetries) with
    | (.ok n, evs) =>
      let r := loadBatchesGo loadF maxRetries retryDelay rest (idx + 1) (total + n)
      (r.1, evs ++ r.2.1, r.2.2)
    | (.error e, evs) => (.error e, evs, ["Failed to load batch: " ++ e])

/-- Outcome of one `BaseETL.run`: the exception that propagated out of `run()`
(if any), the final `ETLResult` state, and the event trace. -/
structure RunOutput where
  raised : Option String
  final : JobState
  trace : List Ev
deriving Repr

/-- `BaseETL.run` (lines 161-229): extract with retry; an empty extraction
ends the job as `success`; transform is pure; load runs in batches; a load
failure marks the job `failed`, appends the error and re-raises. A `partial`
status arises when non-fatal errors accumulated but load succeeded. -/
def runModel (extractF : ℕ → Except String (List ℕ)) (transformF : List ℕ → List Batch)
    (loadF : Batch → ℕ → Except String ℕ) (maxRetries retryDelay batchSize : ℕ) :
    RunOutput :=
  let st0 : JobState :=
    { status := .running, recordsExtracted := 0, recordsTransformed := 0
      recordsLoaded := 0, errors := [] }
  match extractWithRetry extractF maxRetries retryDelay with
  | (.error e, evs) =>
    { raised := some e
      final := { st0 with status := .failed, errors := st0.errors ++ [e] }
      trace := evs }
  | (.ok recs, evs) =>
    let st1 := { st0 with recordsExtracted := recs.length }
    if recs.isEmpty then
      { raised := none, final := { st1 with status := .success }, trace := evs }
    else
      let layers := transformF recs
      let st2 := { st1 with recordsTransformed := ((layers.lookup "staging").getD []).length }
      match loadBatchesGo loadF maxRetries retryDelay (mkBatches batchSize layers) 0 0 with
      | (.ok total, levs, lerrs) =>
        let st3 := { st2 with recordsLoaded := total, errors := st2.errors ++ lerrs }
        { raised := none
          final := { st3 with status := if st3.errors.isEmpty then .success else .partialSuccess }
          trace := evs ++ levs }
      | (.error e, levs, lerrs) =>
        { raised := some e
          final := { st2 with status := .failed, errors := (st2.errors ++ lerrs) ++ [e] }
          trace := evs ++ levs }

/-- Expected trace of a retry loop whose every attempt fails: each attempt but
the last is followed by one fixed-delay sleep. -/
def failSeq (d : ℕ) : List ℕ → List Ev
  | [] => []
  | [a] => [Ev.extractAttempt a]
  | a :: b :: rest => Ev.extractAttempt a :: Ev.sleepFor d :: failSeq d (b :: rest)

/-- Expected trace prefix of failed attempts each followed by a sleep. -/
def sleepAfterEach (d : ℕ) (l : List ℕ) : List Ev :=
  l.foldr (fun a acc => Ev.extractAttempt a :: Ev.sleepFor d :: acc) []

/-- Every numeric column of a fundamentals row is non-NULL. -/
def allFieldsSome (q : FinFact) : Prop :=
  q.revenue.isSome ∧ q.costOfRevenue.isSome ∧ q.grossProfit.isSome ∧
  q.operatingExpenses.isSome ∧ q.operatingIncome.isSome ∧ q.netIncome.isSome ∧
  q.eps.isSome ∧ q.epsDiluted.isSome ∧ q.operatingCashFlow.isSome ∧
  q.investingCashFlow.isSome ∧ q.financingCashFlow.isSome ∧ q.freeCashFlow.isSome ∧
  q.capitalExpenditures.isSome ∧ q.dividendsPaid.isSome ∧ q.sharesOutstanding.isSome ∧
  q.totalAssets.isSome ∧ q.currentAssets.isSome ∧ q.totalLiabilities.isSome ∧
  q.currentLiabilities.isSome ∧ q.totalEquity.isSome ∧ q.cashAndEquivalents.isSome ∧
  q.totalDebt.isSome ∧ q.netDebt.isSome

/-! ### Concrete evaluation data -/

/-- A fully populated quarterly fundamentals row of company 1, accepted on day
400 at 01:00 (timestamp 34563600). -/
def exQuarter (fk fd : ℕ) (pt : PeriodType) (rev shares : ℚ) : FinFact :=
  { financialKey := fk, companyKey := 1, fiscalDateKey := fd, periodType := pt
    acceptedDate := 34563600
    revenue := some rev, costOfRevenue := some 1, grossProfit := some 1
    operatingExpenses := some 1, operatingIncome := some 1, netIncome := some 1
    eps := some 1, epsDiluted := some 1, operatingCashFlow := some 1
    investingCashFlow := some 1, financingCashFlow := some 1, freeCashFlow := some 1
    capitalExpenditures := some 1, dividendsPaid := some 1
    sharesOutstanding := some shares, totalAssets := some 1, currentAssets := some 1
    totalLiabilities := some 1, currentLiabilities := some 1, totalEquity := some 1
    cashAndEquivalents := some 1, totalDebt := some 1, netDebt := some 1 }

/-- A warehouse holding 4 quarters (revenues 100/110/120/130 in fiscal order)
for company 1 and no derived rows. -/
def exW4 : Warehouse :=
  { factFinancials :=
      [exQuarter 1 100 .q1 100 10, exQuarter 2 190 .q2 110 20,
       exQuarter 3 280 .q3 120 30, exQuarter 4 370 .q4 130 999]
    factFinancialsTTM := [], factRatios := [], factDailyPrices := []
    factMarketMetrics := [] }

/-- The single discovery opportunity of `exW4` (and of `exW3`): company 1,
acceptance timestamp 34563600, calculation date day 400. -/
def exOpp : TTMOpportunity := { companyKey := 1, acceptedDate := 34563600, calculationDate := 400 }

/-- A warehouse holding only 3 quarters for company 1. -/
def exW3 : Warehouse :=
  { factFinancials :=
      [exQuarter 1 100 .q1 100 10, exQuarter 2 190 .q2 110 20,
       exQuarter 3 280 .q3 120 30]
    factFinancialsTTM := [], factRatios := [], factDailyPrices := []
    factMarketMetrics := [] }

/-- A fundamentals row with every numeric column NULL. -/
def exFinBad : FinFact :=
  { financialKey := 0, companyKey := 0, fiscalDateKey := 0, periodType := .fy
    acceptedDate := 0
    revenue := none, costOfRevenue := none, grossProfit := none
    operatingExpenses := none, operatingIncome := none, netIncome := none
    eps := none, epsDiluted := none, operatingCashFlow := none
    investingCashFlow := none, financingCashFlow := none, freeCashFlow := none
    capitalExpenditures := none, dividendsPaid := none, sharesOutstanding := none
    totalAssets := none, currentAssets := none, totalLiabilities := none
    currentLiabilities := none, totalEquity := none, cashAndEquivalents := none
    totalDebt := none, netDebt := none }

/-- A market-metrics input row with every numeric column NULL. -/
def exMarketBad : MarketInput :=
  { priceKey := 0, companyKey := 0, dateKey := 0, closePrice := none
    financialKey := none, periodType := none, quarterlyEpsDiluted := none
    totalDebt := none, cashAndEquivalents := none, quarterlyShares := none
    quarterlyRevenuePerShare := none, bookValuePerShare := none
    ttmRevenue := none, ttmNetIncome := none, ttmEpsDiluted := none
    ttmOperatingIncome := none, ttmDividendsPaid := none, ttmShares := none
    ttmTotalDebt := none, ttmCash := none }

/-- A market-metrics input whose enterprise value computes to −99 (price 1,
one share, 100 of cash): positive revenues but a negative EV. -/
def exMarketNegEV : MarketInput :=
  { priceKey := 1, companyKey := 1, dateKey := 1, closePrice := some 1
    financialKey := none, periodType := none, quarterlyEpsDiluted := none
    totalDebt := none, cashAndEquivalents := none, quarterlyShares := some 1
    quarterlyRevenuePerShare := some 3, bookValuePerShare := none
    ttmRevenue := some 7, ttmNetIncome := none, ttmEpsDiluted := none
    ttmOperatingIncome := some 5, ttmDividendsPaid := none, ttmShares := none
    ttmTotalDebt := none, ttmCash := some 100 }

/-- The fundamentals record of the spec's Scenario B (revenue 1,000,000,
net income 100,000, total equity 500,000). -/
def exFinScB : FinFact :=
  { exFinBad with
    financialKey := 6, companyKey := 6, fiscalDateKey := 6,
    revenue := some 1000000, grossProfit := some 400000,
    operatingIncome := some 200000, netIncome := some 100000,
    totalEquity := some 500000, totalAssets := some 1000000 }

/-- A fundamentals record with positive denominators but NULL numerators. -/
def exFinNullNum : FinFact :=
  { exFinBad with
    financialKey := 10, companyKey := 10, fiscalDateKey := 10,
    revenue := some 5, totalEquity := some 4, totalAssets := some 3 }

/-- An extract oracle that fails on every attempt. -/
def exExtractFailF : ℕ → Except String (List ℕ) := fun _ => .error "down"

/-- An extract oracle that fails twice and succeeds on the third attempt. -/
def exExtractOkF : ℕ → Except String (List ℕ) :=
  fun i => if i < 2 then .error "down" else .ok [7, 8]

/-- A transform oracle emitting one `staging` layer. -/
def exTransformF : List ℕ → List Batch := fun recs => [("staging", recs)]

/-- A load oracle that always fails on any batch containing record 3 and
succeeds on every other batch. -/
def exLoadFailF : Batch → ℕ → Except String ℕ :=
  fun b _ => if b.2.contains 3 then .error "db down" else .ok b.2.length

/-! ### Theorems -/

/-- `orZero` on NULL. -/
theorem orZero_none : orZero none = 0 := rfl

/-- `orZero` on a present value. -/
theorem orZero_some (x : ℚ) : orZero (some x) = x := rfl

/-- `ev_to_revenue` as a function of the stored (rounded) enterprise value. -/
theorem mkMetricRecord_evToRevenue (m : MarketInput) :
    (mkMetricRecord m).evToRevenue =
      match (mkMetricRecord m).enterpriseValue with
      | some ev =>
        if 0 < ev then
          if 0 < orZero m.quarterlyRevenuePerShare ∧
              0 < truthyOr m.ttmShares (truthyOr m.quarterlyShares 0) then
            some (round2 (ev / (orZero m.quarterlyRevenuePerShare *
              truthyOr m.ttmShares (truthyOr m.quarterlyShares 0))))
          else none
        else none
      | none => none := rfl

/-- `ev_to_revenue_ttm` as a function of the stored enterprise value. -/
theorem mkMetricRecord_evToRevenueTtm (m : MarketInput) :
    (mkMetricRecord m).evToRevenueTtm =
      match (mkMetricRecord m).enterpriseValue with
      | some ev =>
        if 0 < ev then
          if 0 < orZero m.ttmRevenue then some (round2 (ev / orZero m.ttmRevenue)) else none
        else none
      | none => none := rfl

/-- `ev_to_ebitda` as a function of the stored enterprise value. -/
theorem mkMetricRecord_evToEbitda (m : MarketInput) :
    (mkMetricRecord m).evToEbitda =
      match (mkMetricRecord m).enterpriseValue with
      | some ev =>
        if 0 < ev then
          if 0 < orZero m.ttmOperatingIncome then
            some (round2 (ev / orZero m.ttmOperatingIncome))
          else none
        else none
      | none => none := rfl

/-- `ev_to_ebit` equals `ev_to_ebitda` (no depreciation data). -/
theorem mkMetricRecord_evToEbit (m : MarketInput) :
    (mkMetricRecord m).evToEbit = (mkMetricRecord m).evToEbitda := rfl

/-- C7: the market-metrics engine sets `dividend_yield` to
|TTM dividends| / shares / close × 100 (rounded to 2 decimals) exactly when
TTM `dividends_paid` is negative and the effective shares outstanding and the
close price are positive, and sets `payout_ratio` to
|TTM dividends| / TTM net income × 100 exactly when TTM net income is positive
and TTM dividends are negative; in every other case the field is NULL. -/
theorem dividend_yield_payout_rule (m : MarketInput) :
    ((mkMetricRecord m).dividendYield =
      if 0 < orZero m.closePrice ∧ orZero m.ttmDividendsPaid < 0 ∧
          0 < truthyOr m.ttmShares (truthyOr m.quarterlyShares 0) then
        some (round2 (|orZero m.ttmDividendsPaid| /
          truthyOr m.ttmShares (truthyOr m.quarterlyShares 0) / orZero m.closePrice * 100))
      else none) ∧
    ((mkMetricRecord m).payoutPct =
      if 0 < orZero m.ttmNetIncome ∧ orZero m.ttmDividendsPaid < 0 then
        some (round2 (|orZero m.ttmDividendsPaid| / orZero m.ttmNetIncome * 100))
      else none) :=
  ⟨rfl, rfl⟩

/-- C6: on a fundamentals record with positive revenue, total equity and total
assets, the ratio engine computes the five profitability ratios by the spec's
formulas, each rounded to 2 decimals. -/
theorem ratio_margin_formulas (r : FinFact) (rev gp oi ni te ta : ℚ)
    (hrev : r.revenue = some rev) (hgp : r.grossProfit = some gp)
    (hoi : r.operatingIncome = some oi) (hni : r.netIncome = some ni)
    (hte : r.totalEquity = some te) (hta : r.totalAssets = some ta)
    (hrevpos : 0 < rev) (htepos : 0 < te) (htapos : 0 < ta) :
    (mkRatioRecord r).grossMargin = some (round2 (gp / rev * 100)) ∧
    (mkRatioRecord r).operatingMargin = some (round2 (oi / rev * 100)) ∧
    (mkRatioRecord r).profitMargin = some (round2 (ni / rev * 100)) ∧
    (mkRatioRecord r).roe = some (round2 (ni / te * 100)) ∧
    (mkRatioRecord r).roa = some (round2 (ni / ta * 100)) := by
  simp [mkRatioRecord, orZero, hrev, hgp, hoi, hni, hte, hta, hrevpos, htepos, htapos]

/-- C6 witness: the spec's Scenario B record (revenue 1,000,000, net income
100,000, total equity 500,000) yields `profit_margin = 10.0`, `roe = 20.0`. -/
theorem ratio_margin_formulas_spot :
    (mkRatioRecord exFinScB).profitMargin = some 10 ∧
    (mkRatioRecord exFinScB).roe = some 20 := by
  have h := ratio_margin_formulas exFinScB 1000000 400000 200000 100000 500000 1000000
    rfl rfl rfl rfl rfl rfl (by norm_num) (by norm_num) (by norm_num)
  refine ⟨?_, ?_⟩
  · rw [h.2.2.1]; norm_num [round2]
  · rw [h.2.2.2.1]; norm_num [round2]

/-- C10: in the ratio engine a NULL numerator is coerced to zero rather than
nulling the ratio: with positive revenue and NULL gross profit / operating
income / net income the corresponding margin is 0.0, and with positive equity
(assets) and NULL total debt, `debt_to_equity` (`debt_to_assets`) is 0.0. -/
theorem ratio_null_numerator_coerced (r : FinFact) :
    (0 < orZero r.revenue → r.grossProfit = none → (mkRatioRecord r).grossMargin = some 0) ∧
    (0 < orZero r.revenue → r.operatingIncome = none →
      (mkRatioRecord r).operatingMargin = some 0) ∧
    (0 < orZero r.revenue → r.netIncome = none → (mkRatioRecord r).profitMargin = some 0) ∧
    (0 < orZero r.totalEquity → r.totalDebt = none →
      (mkRatioRecord r).debtToEquity = some 0) ∧
    (0 < orZero r.totalAssets → r.totalDebt = none →
      (mkRatioRecord r).debtToAssets = some 0) := by
  refine ⟨fun h hn => ?_, fun h hn => ?_, fun h hn => ?_, fun h hn => ?_, fun h hn => ?_⟩ <;>
    · simp [mkRatioRecord, hn, orZero_none, h, round2]
      norm_num

/-- C10 witness: a record with revenue 5, equity 4, assets 3 and NULL
numerators gets margins and debt ratios of 0.0, not NULL. -/
theorem ratio_null_numerator_coerced_spot :
    (mkRatioRecord exFinNullNum).grossMargin = some 0 ∧
    (mkRatioRecord exFinNullNum).operatingMargin = some 0 ∧
    (mkRatioRecord exFinNullNum).profitMargin = some 0 ∧
    (mkRatioRecord exFinNullNum).debtToEquity = some 0 ∧
    (mkRatioRecord exFinNullNum).debtToAssets = some 0 := by
  have h := ratio_null_numerator_coerced exFinNullNum
  have hrev : (0 : ℚ) < orZero exFinNullNum.revenue := by norm_num [exFinNullNum, exFinBad, orZero]
  have hte : (0 : ℚ) < orZero exFinNullNum.totalEquity := by
    norm_num [exFinNullNum, exFinBad, orZero]
  have hta : (0 : ℚ) < orZero exFinNullNum.totalAssets := by
    norm_num [exFinNullNum, exFinBad, orZero]
  exact ⟨h.1 hrev rfl, h.2.1 hrev rfl, h.2.2.1 hrev rfl, h.2.2.2.1 hte rfl, h.2.2.2.2 hta rfl⟩

/-- C4: in both the ratio engine and the market-metrics engine, every ratio or
multiple whose required denominator is zero or negative is NULL for that
record; the computations are total functions into `Option ℚ` (no division
error, no infinity). -/
theorem division_safety :
    (∀ r : FinFact,
      (orZero r.revenue ≤ 0 →
        (mkRatioRecord r).grossMargin = none ∧ (mkRatioRecord r).operatingMargin = none ∧
        (mkRatioRecord r).profitMargin = none ∧ (mkRatioRecord r).assetTurnover = none) ∧
      (orZero r.totalEquity ≤ 0 →
        (mkRatioRecord r).roe = none ∧ (mkRatioRecord r).debtToEquity = none ∧
        (mkRatioRecord r).bookValuePerShare = none) ∧
      (orZero r.totalAssets ≤ 0 →
        (mkRatioRecord r).roa = none ∧ (mkRatioRecord r).debtToAssets = none ∧
        (mkRatioRecord r).assetTurnover = none) ∧
      (orZero r.currentLiabilities ≤ 0 →
        (mkRatioRecord r).currentRat = none ∧ (mkRatioRecord r).quickRat = none) ∧
      (orZero r.sharesOutstanding ≤ 0 → (mkRatioRecord r).bookValuePerShare = none)) ∧
    (∀ m : MarketInput,
      (orZero m.quarterlyEpsDiluted ≤ 0 → (mkMetricRecord m).peQ = none) ∧
      (orZero m.ttmEpsDiluted ≤ 0 → (mkMetricRecord m).peTtm = none) ∧
      (orZero m.bookValuePerShare ≤ 0 → (mkMetricRecord m).pbR = none) ∧
      (orZero m.quarterlyRevenuePerShare ≤ 0 →
        (mkMetricRecord m).psQ = none ∧ (mkMetricRecord m).evToRevenue = none) ∧
      (orZero m.ttmRevenue ≤ 0 →
        (mkMetricRecord m).psTtm = none ∧ (mkMetricRecord m).evToRevenueTtm = none) ∧
      (truthyOr m.ttmShares (truthyOr m.quarterlyShares 0) ≤ 0 →
        (mkMetricRecord m).marketCap = none ∧ (mkMetricRecord m).enterpriseValue = none ∧
        (mkMetricRecord m).psTtm = none ∧ (mkMetricRecord m).dividendYield = none) ∧
      (orZero m.closePrice ≤ 0 →
        (mkMetricRecord m).marketCap = none ∧ (mkMetricRecord m).enterpriseValue = none ∧
        (mkMetricRecord m).dividendYield = none) ∧
      (orZero m.ttmOperatingIncome ≤ 0 →
        (mkMetricRecord m).evToEbitda = none ∧ (mkMetricRecord m).evToEbit = none) ∧
      (orZero m.ttmNetIncome ≤ 0 → (mkMetricRecord m).payoutPct = none) ∧
      ((mkMetricRecord m).enterpriseValue = none →
        (mkMetricRecord m).evToRevenue = none ∧ (mkMetricRecord m).evToRevenueTtm = none ∧
        (mkMetricRecord m).evToEbitda = none ∧ (mkMetricRecord m).evToEbit = none) ∧
      (∀ ev : ℚ, (mkMetricRecord m).enterpriseValue = some ev → ev ≤ 0 →
        (mkMetricRecord m).evToRevenue = none ∧ (mkMetricRecord m).evToRevenueTtm = none ∧
        (mkMetricRecord m).evToEbitda = none ∧ (mkMetricRecord m).evToEbit = none)) := by
  constructor
  · intro r
    refine ⟨fun h => ?_, fun h => ?_, fun h => ?_, fun h => ?_, fun h => ?_⟩ <;>
      simp [mkRatioRecord, not_lt.mpr h]
  · intro m
    refine ⟨fun h => ?_, fun h => ?_, fun h => ?_, fun h => ?_, fun h => ?_, fun h => ?_,
      fun h => ?_, fun h => ?_, fun h => ?_, fun h => ?_, fun ev hev hle => ?_⟩
    · simp [mkMetricRecord, not_lt.mpr h]
    · simp [mkMetricRecord, not_lt.mpr h]
    · simp [mkMetricRecord, not_lt.mpr h]
    · refine ⟨by simp [mkMetricRecord, not_lt.mpr h], ?_⟩
      rw [mkMetricRecord_evToRevenue]
      cases hE : (mkMetricRecord m).enterpriseValue with
      | none => rfl
      | some e =>
        by_cases he : 0 < e
        · simp [he, not_lt.mpr h]
        · simp [he]
    · refine ⟨by simp [mkMetricRecord, not_lt.mpr h], ?_⟩
      rw [mkMetricRecord_evToRevenueTtm]
      cases hE : (mkMetricRecord m).enterpriseValue with
      | none => rfl
      | some e =>
        by_cases he : 0 < e
        · simp [he, not_lt.mpr h]
        · simp [he]
    · exact ⟨by simp [mkMetricRecord, not_lt.mpr h], by simp [mkMetricRecord, not_lt.mpr h],
        by simp [mkMetricRecord, not_lt.mpr h], by simp [mkMetricRecord, not_lt.mpr h]⟩
    · exact ⟨by simp [mkMetricRecord, not_lt.mpr h], by simp [mkMetricRecord, not_lt.mpr h],
        by simp [mkMetricRecord, not_lt.mpr h]⟩
    · constructor
      · rw [mkMetricRecord_evToEbitda]
        cases hE : (mkMetricRecord m).enterpriseValue with
        | none => rfl
        | some e =>
          by_cases he : 0 < e
          · simp [he, not_lt.mpr h]
          · simp [he]
      · rw [mkMetricRecord_evToEbit, mkMetricRecord_evToEbitda]
        cases hE : (mkMetricRecord m).enterpriseValue with
        | none => rfl
        | some e =>
          by_cases he : 0 < e
          · simp [he, not_lt.mpr h]
          · simp [he]
    · simp [mkMetricRecord, not_lt.mpr h]
    · refine ⟨?_, ?_, ?_, ?_⟩
      · rw [mkMetricRecord_evToRevenue, h]
      · rw [mkMetricRecord_evToRevenueTtm, h]
      · rw [mkMetricRecord_evToEbitda, h]
      · rw [mkMetricRecord_evToEbit, mkMetricRecord_evToEbitda, h]
    · refine ⟨?_, ?_, ?_, ?_⟩
      · rw [mkMetricRecord_evToRevenue, hev]
        simp [not_lt.mpr hle]
      · rw [mkMetricRecord_evToRevenueTtm, hev]
        simp [not_lt.mpr hle]
      · rw [mkMetricRecord_evToEbitda, hev]
        simp [not_lt.mpr hle]
      · rw [mkMetricRecord_evToEbit, mkMetricRecord_evToEbitda, hev]
        simp [not_lt.mpr hle]

/-- C4 witness: a record whose numeric columns are all NULL (denominators all
0) has every ratio field NULL in both engines, and a record with a negative
enterprise value (price 1, one share, cash 100) has all EV multiples NULL
despite positive revenue and operating income. -/
theorem division_safety_spot :
    (mkRatioRecord exFinBad).grossMargin = none ∧
    (mkRatioRecord exFinBad).operatingMargin = none ∧
    (mkRatioRecord exFinBad).profitMargin = none ∧
    (mkRatioRecord exFinBad).roe = none ∧
    (mkRatioRecord exFinBad).roa = none ∧
    (mkRatioRecord exFinBad).currentRat = none ∧
    (mkRatioRecord exFinBad).quickRat = none ∧
    (mkRatioRecord exFinBad).debtToEquity = none ∧
    (mkRatioRecord exFinBad).debtToAssets = none ∧
    (mkRatioRecord exFinBad).assetTurnover = none ∧
    (mkRatioRecord exFinBad).bookValuePerShare = none ∧
    (mkMetricRecord exMarketBad).peQ = none ∧
    (mkMetricRecord exMarketBad).peTtm = none ∧
    (mkMetricRecord exMarketBad).pbR = none ∧
    (mkMetricRecord exMarketBad).psQ = none ∧
    (mkMetricRecord exMarketBad).psTtm = none ∧
    (mkMetricRecord exMarketBad).marketCap = none ∧
    (mkMetricRecord exMarketBad).dividendYield = none ∧
    (mkMetricRecord exMarketBad).payoutPct = none ∧
    (mkMetricRecord exMarketNegEV).enterpriseValue = some (-99) ∧
    (mkMetricRecord exMarketNegEV).evToRevenue = none ∧
    (mkMetricRecord exMarketNegEV).evToRevenueTtm = none ∧
    (mkMetricRecord exMarketNegEV).evToEbitda = none ∧
    (mkMetricRecord exMarketNegEV).evToEbit = none := by
  have hr := division_safety.1 exFinBad
  have hm := division_safety.2 exMarketBad
  have hneg := division_safety.2 exMarketNegEV
  have hz : ∀ x : Option ℚ, x = none → orZero x ≤ 0 := by
    intro x hx
    rw [hx]
    norm_num [orZero]
  have hEV : (mkMetricRecord exMarketNegEV).enterpriseValue = some (-99) := by
    norm_num [mkMetricRecord, exMarketNegEV, orZero, truthyOr, round2]
  have hEVfields := (hneg.2.2.2.2.2.2.2.2.2.2 : ∀ ev : ℚ, _) (-99) hEV (by norm_num)
  refine ⟨(hr.1 (hz _ rfl)).1, (hr.1 (hz _ rfl)).2.1, (hr.1 (hz _ rfl)).2.2.1,
    (hr.2.1 (hz _ rfl)).1, (hr.2.2.1 (hz _ rfl)).1, (hr.2.2.2.1 (hz _ rfl)).1,
    (hr.2.2.2.1 (hz _ rfl)).2, (hr.2.1 (hz _ rfl)).2.1, (hr.2.2.1 (hz _ rfl)).2.1,
    (hr.1 (hz _ rfl)).2.2.2, (hr.2.2.2.2 (hz _ rfl)),
    hm.1 (hz _ rfl), hm.2.1 (hz _ rfl), hm.2.2.1 (hz _ rfl),
    (hm.2.2.2.1 (hz _ rfl)).1, (hm.2.2.2.2.1 (hz _ rfl)).1,
    (hm.2.2.2.2.2.2.1 (hz _ rfl)).1, (hm.2.2.2.2.2.2.1 (hz _ rfl)).2.2,
    hm.2.2.2.2.2.2.2.2.1 (hz _ rfl),
    hEV, hEVfields.1, hEVfields.2.1, hEVfields.2.2.1, hEVfields.2.2.2⟩

/-- After a TTM run, every remaining discovery opportunity is excluded by the
anti-join: its `(company_key, calculation_date)` pair is now present. -/
theorem ttmExtract_append_new (w : Warehouse) :
    ttmExtract { w with factFinancialsTTM :=
      w.factFinancialsTTM ++ ttmTransform w.factFinancials (ttmExtract w) } = [] := by
  rw [ttmExtract]
  apply List.filter_eq_nil_iff.mpr
  intro o ho
  simp only [Bool.not_eq_true', Bool.not_eq_false]
  show ttmPairExists (w.factFinancialsTTM ++ ttmTransform w.factFinancials (ttmExtract w))
    o.companyKey o.calculationDate = true
  rw [ttmPairExists, List.any_append]
  by_cases hp : ttmPairExists w.factFinancialsTTM o.companyKey o.calculationDate = true
  · rw [ttmPairExists] at hp
    rw [hp, Bool.true_or]
  · have hmem : o ∈ ttmExtract w := by
      rw [ttmExtract]
      apply List.mem_filter.mpr
      refine ⟨ho, ?_⟩
      simp only [Bool.not_eq_true'] at hp ⊢
      exact Bool.not_eq_true _ ▸ hp
    have hrec : mkTTMRecord w.factFinancials o ∈
        ttmTransform w.factFinancials (ttmExtract w) :=
      List.mem_map_of_mem _ hmem
    have hany : (ttmTransform w.factFinancials (ttmExtract w)).any
        (fun t => t.companyKey == o.companyKey && t.calculationDate == o.calculationDate) =
          true :=
      List.any_eq_true.mpr ⟨_, hrec, by simp [mkTTMRecord]⟩
    rw [hany, Bool.or_true]

/-- The TTM engine's extraction is empty immediately after a TTM run. -/
theorem ttmExtract_after_run (w : Warehouse) : ttmExtract (ttmRun w).1 = [] := by
  by_cases h : (ttmExtract w).isEmpty
  · have heq : ttmRun w = (w, 0) := by simp [ttmRun, h]
    rw [heq]
    exact List.isEmpty_iff.mp h
  · have heq : (ttmRun w).1 = { w with
        factFinancialsTTM := w.factFinancialsTTM ++
          ttmTransform w.factFinancials (ttmExtract w) } := by
      simp [ttmRun, h]
    rw [heq]
    exact ttmExtract_append_new w

/-- After a ratio run, every fundamentals row is excluded by the anti-join:
its `financial_key` now has a ratio row. -/
theorem ratioExtract_append_new (w : Warehouse) :
    ratioExtract { w with factRatios :=
      w.factRatios ++ ratioTransform (ratioExtract w) } = [] := by
  rw [ratioExtract]
  apply List.filter_eq_nil_iff.mpr
  intro f hf
  simp only [Bool.not_eq_true', Bool.not_eq_false]
  show ratioExists (w.factRatios ++ ratioTransform (ratioExtract w)) f.financialKey = true
  rw [ratioExists, List.any_append]
  by_cases hp : ratioExists w.factRatios f.financialKey = true
  · rw [ratioExists] at hp
    rw [hp, Bool.true_or]
  · have hmem : f ∈ ratioExtract w := by
      rw [ratioExtract]
      apply List.mem_filter.mpr
      refine ⟨hf, ?_⟩
      simp only [Bool.not_eq_true'] at hp ⊢
      exact Bool.not_eq_true _ ▸ hp
    have hrec : mkRatioRecord f ∈ ratioTransform (ratioExtract w) :=
      List.mem_map_of_mem _ hmem
    have hany : (ratioTransform (ratioExtract w)).any
        (fun t => t.financialKey == f.financialKey) = true :=
      List.any_eq_true.mpr ⟨_, hrec, by simp [mkRatioRecord]⟩
    rw [hany, Bool.or_true]

/-- The ratio engine's extraction is empty immediately after a ratio run. -/
theorem ratioExtract_after_run (w : Warehouse) : ratioExtract (ratioRun w).1 = [] := by
  by_cases h : (ratioExtract w).isEmpty
  · have heq : ratioRun w = (w, 0) := by simp [ratioRun, h]
    rw [heq]
    exact List.isEmpty_iff.mp h
  · have heq : (ratioRun w).1 = { w with
        factRatios := w.factRatios ++ ratioTransform (ratioExtract w) } := by
      simp [ratioRun, h]
    rw [heq]
    exact ratioExtract_append_new w

/-- After a market-metrics run, every priced row with financial data is
excluded by the anti-join: its `(company_key, date_key)` pair is now present. -/
theorem metricsExtract_append_new (w : Warehouse) :
    metricsExtract { w with factMarketMetrics :=
      w.factMarketMetrics ++ metricsTransform (metricsExtract w) } = [] := by
  rw [metricsExtract, List.map_eq_nil_iff]
  apply List.filter_eq_nil_iff.mpr
  intro p hp
  intro hcond
  rw [Bool.and_eq_true] at hcond
  obtain ⟨hfin, hnot⟩ := hcond
  rw [Bool.not_eq_true'] at hnot
  apply absurd hnot
  rw [Bool.not_eq_false]
  show metricPairExists (w.factMarketMetrics ++ metricsTransform (metricsExtract w))
    p.companyKey p.dateKey = true
  rw [metricPairExists, List.any_append]
  by_cases hex : metricPairExists w.factMarketMetrics p.companyKey p.dateKey = true
  · rw [metricPairExists] at hex
    rw [hex, Bool.true_or]
  · have hmem : mkMarketInput w p ∈ metricsExtract w := by
      rw [metricsExtract]
      apply List.mem_map_of_mem
      apply List.mem_filter.mpr
      refine ⟨hp, ?_⟩
      rw [Bool.and_eq_true]
      refine ⟨hfin, ?_⟩
      simp only [Bool.not_eq_true'] at hex ⊢
      exact Bool.not_eq_true _ ▸ hex
    have hrec : mkMetricRecord (mkMarketInput w p) ∈
        metricsTransform (metricsExtract w) :=
      List.mem_map_of_mem _ hmem
    have hany : (metricsTransform (metricsExtract w)).any
        (fun m => m.companyKey == p.companyKey && m.dateKey == p.dateKey) = true :=
      List.any_eq_true.mpr ⟨_, hrec, by simp [mkMetricRecord, mkMarketInput]⟩
    rw [hany, Bool.or_true]

/-- The market-metrics extraction is empty immediately after a metrics run. -/
theorem metricsExtract_after_run (w : Warehouse) :
    metricsExtract (metricsRun w).1 = [] := by
  by_cases h : (metricsExtract w).isEmpty
  · have heq : metricsRun w = (w, 0) := by simp [metricsRun, h]
    rw [heq]
    exact List.isEmpty_iff.mp h
  · have heq : (metricsRun w).1 = { w with
        factMarketMetrics := w.factMarketMetrics ++
          metricsTransform (metricsExtract w) } := by
      simp [metricsRun, h]
    rw [heq]
    exact metricsExtract_append_new w

/-- C5: running any of the three derived-metrics engines a second time on the
unchanged warehouse state extracts zero records and loads zero rows (and
leaves the warehouse unchanged), because each extraction query excludes
already-derived keys. -/
theorem second_run_is_noop (w : Warehouse) :
    (ttmExtract (ttmRun w).1 = [] ∧ ttmRun (ttmRun w).1 = ((ttmRun w).1, 0)) ∧
    (ratioExtract (ratioRun w).1 = [] ∧ ratioRun (ratioRun w).1 = ((ratioRun w).1, 0)) ∧
    (metricsExtract (metricsRun w).1 = [] ∧
      metricsRun (metricsRun w).1 = ((metricsRun w).1, 0)) := by
  refine ⟨⟨ttmExtract_after_run w, ?_⟩, ⟨ratioExtract_after_run w, ?_⟩,
    ⟨metricsExtract_after_run w, ?_⟩⟩
  · rw [ttmRun, ttmExtract_after_run w]
    rfl
  · rw [ratioRun, ratioExtract_after_run w]
    rfl
  · rw [metricsRun, metricsExtract_after_run w]
    rfl

/-- Membership in a descending insertion. -/
theorem mem_insertDesc {f g : FinFact} {l : List FinFact} :
    g ∈ insertDesc f l ↔ g = f ∨ g ∈ l := by
  induction l with
  | nil => simp [insertDesc]
  | cons a t ih =>
    simp only [insertDesc]
    split
    · simp [List.mem_cons]
    · simp only [List.mem_cons, ih]
      tauto

/-- Sorting by fiscal date preserves membership. -/
theorem mem_sortByFiscalDesc {g : FinFact} {l : List FinFact} :
    g ∈ sortByFiscalDesc l ↔ g ∈ l := by
  induction l with
  | nil => simp [sortByFiscalDesc]
  | cons a t ih =>
    simp only [sortByFiscalDesc, mem_insertDesc, ih, List.mem_cons]

/-- Length of a descending insertion. -/
theorem length_insertDesc (f : FinFact) (l : List FinFact) :
    (insertDesc f l).length = l.length + 1 := by
  induction l with
  | nil => rfl
  | cons a t ih =>
    simp only [insertDesc]
    split
    · rfl
    · simp [List.length_cons, ih]

/-- Sorting by fiscal date preserves length. -/
theorem length_sortByFiscalDesc (l : List FinFact) :
    (sortByFiscalDesc l).length = l.length := by
  induction l with
  | nil => rfl
  | cons a t ih =>
    simp [sortByFiscalDesc, length_insertDesc, ih]

/-- A discovered opportunity's calculation date is the calendar day of its
triggering acceptance timestamp (`accepted_date::DATE`). -/
theorem opp_calcDate {fin : List FinFact} {o : TTMOpportunity}
    (ho : o ∈ ttmOpportunities fin) : o.calculationDate = tsDate o.acceptedDate := by
  rw [ttmOpportunities] at ho
  obtain ⟨p, _, rfl⟩ := List.mem_map.mp (List.mem_filter.mp ho).1
  rfl

/-- A discovered opportunity has at least 4 distinct available fiscal dates. -/
theorem opp_distinct_count {fin : List FinFact} {o : TTMOpportunity}
    (ho : o ∈ ttmOpportunities fin) :
    4 ≤ ((availableQuarters fin o.companyKey o.acceptedDate
      o.calculationDate).map (·.fiscalDateKey)).dedup.length := by
  rw [ttmOpportunities] at ho
  have h := (List.mem_filter.mp ho).2
  simpa using h

/-- An extracted opportunity is a discovered opportunity. -/
theorem ttmExtract_sub {w : Warehouse} {o : TTMOpportunity} (ho : o ∈ ttmExtract w) :
    o ∈ ttmOpportunities w.factFinancials := by
  rw [ttmExtract] at ho
  exact (List.mem_filter.mp ho).1

/-- A contributing quarter is one of the available quarters. -/
theorem mem_contributing_available {fin : List FinFact} {o : TTMOpportunity} {q : FinFact}
    (hq : q ∈ contributingQuarters fin o) :
    q ∈ availableQuarters fin o.companyKey o.acceptedDate o.calculationDate := by
  rw [contributingQuarters] at hq
  exact mem_sortByFiscalDesc.mp (List.take_subset _ _ hq)

/-- An available quarter was accepted no later than the triggering timestamp. -/
theorem available_accepted_le {fin : List FinFact} {ck ts cd : ℕ} {q : FinFact}
    (hq : q ∈ availableQuarters fin ck ts cd) : q.acceptedDate ≤ ts := by
  rw [availableQuarters] at hq
  have h := (List.mem_filter.mp hq).2
  simp only [Bool.and_eq_true, decide_eq_true_eq] at h
  exact h.1.2

/-- C1: every quarterly fundamentals record contributing to a TTM record the
engine produces (for an opportunity its discovery query emitted) was accepted
on or before the record's calculation date; no quarterly record accepted on a
later day is ever included. -/
theorem ttm_no_lookahead (w : Warehouse) (o : TTMOpportunity) (ho : o ∈ ttmExtract w) :
    (∀ q ∈ contributingQuarters w.factFinancials o,
      tsDate q.acceptedDate ≤ (mkTTMRecord w.factFinancials o).calculationDate) ∧
    (∀ q : FinFact,
      (mkTTMRecord w.factFinancials o).calculationDate < tsDate q.acceptedDate →
      q ∉ contributingQuarters w.factFinancials o) := by
  have hcd : (mkTTMRecord w.factFinancials o).calculationDate = tsDate o.acceptedDate :=
    opp_calcDate (ttmExtract_sub ho)
  have hfst : ∀ q ∈ contributingQuarters w.factFinancials o,
      tsDate q.acceptedDate ≤ (mkTTMRecord w.factFinancials o).calculationDate := by
    intro q hq
    have h1 : q.acceptedDate ≤ o.acceptedDate :=
      available_accepted_le (mem_contributing_available hq)
    rw [hcd]
    exact Nat.div_le_div_right h1
  exact ⟨hfst, fun q hlt hq => absurd (hfst q hq) (not_le.mpr hlt)⟩

/-- C1 witness: in the 4-quarter warehouse the discovery emits the day-400
opportunity and every contributing quarter is accepted by day 400. -/
theorem ttm_no_lookahead_spot :
    exOpp ∈ ttmExtract exW4 ∧
    ∀ q ∈ contributingQuarters exW4.factFinancials exOpp,
      tsDate q.acceptedDate ≤ (mkTTMRecord exW4.factFinancials exOpp).calculationDate := by
  have hmem : exOpp ∈ ttmExtract exW4 := by decide
  exact ⟨hmem, (ttm_no_lookahead exW4 exOpp hmem).1⟩

/-- C2 counterexample: the aggregation step performs no fewer-than-4 re-check.
On a warehouse holding only 3 quarterly rows, `transform` still materializes a
TTM record for the opportunity, with `quarters_included = 3` — refuting the
claim that an opportunity whose per-company query finds fewer than 4 quarters
is not materialized. -/
theorem ttm_three_quarters_still_materialized :
    (ttmTransform exW3.factFinancials [exOpp]).map (·.quartersIncluded) = [3] := by
  decide

/-- C2 (amended): every TTM record produced by a full engine run — transform
applied to the discovery query's own opportunities on the same warehouse
state — has `quarters_included = 4`, because discovery requires at least 4
distinct available fiscal dates under the identical availability predicate;
the transform itself performs no re-check. -/
theorem ttm_full_run_quarters_included_four (w : Warehouse) (o : TTMOpportunity)
    (ho : o ∈ ttmExtract w) :
    (mkTTMRecord w.factFinancials o).quartersIncluded = 4 := by
  have hcount := opp_distinct_count (ttmExtract_sub ho)
  have hlen : 4 ≤ (availableQuarters w.factFinancials o.companyKey o.acceptedDate
      o.calculationDate).length := by
    calc 4 ≤ ((availableQuarters w.factFinancials o.companyKey o.acceptedDate
          o.calculationDate).map (·.fiscalDateKey)).dedup.length := hcount
    _ ≤ ((availableQuarters w.factFinancials o.companyKey o.acceptedDate
          o.calculationDate).map (·.fiscalDateKey)).length :=
      (List.dedup_sublist _).length_le
    _ = _ := List.length_map _ _
  show (contributingQuarters w.factFinancials o).length = 4
  rw [contributingQuarters, List.length_take, length_sortByFiscalDesc]
  omega

/-- C2 witness: in the 4-quarter warehouse the produced record has
`quarters_included = 4`. -/
theorem ttm_full_run_quarters_included_four_spot :
    (mkTTMRecord exW4.factFinancials exOpp).quartersIncluded = 4 :=
  ttm_full_run_quarters_included_four exW4 exOpp (by decide)

/-- `filterMap id` over a column with no NULLs is the column of values. -/
theorem filterMap_id_map_of_all_some (g : FinFact → Option ℚ) :
    ∀ qs : List FinFact, (∀ q ∈ qs, (g q).isSome) →
      (qs.map g).filterMap id = qs.map fun q => (g q).getD 0
  | [], _ => rfl
  | a :: t, h => by
    simp only [List.map_cons, List.filterMap_cons]
    obtain ⟨x, hx⟩ := Option.isSome_iff_exists.mp (h a (by simp))
    rw [hx]
    simp only [id_eq]
    rw [filterMap_id_map_of_all_some g t fun q hq => h q (by simp [hq])]
    rfl

/-- SQL `SUM` over a non-empty column with no NULLs is the plain sum. -/
theorem sqlSum_all_some (g : FinFact → Option ℚ) (qs : List FinFact) (hne : qs ≠ [])
    (h : ∀ q ∈ qs, (g q).isSome) :
    sqlSum (qs.map g) = some ((qs.map fun q => (g q).getD 0).sum) := by
  rw [sqlSum, filterMap_id_map_of_all_some g qs h, if_neg]
  intro habs
  exact hne (List.map_eq_nil_iff.mp (List.isEmpty_iff.mp habs))

/-- C3: in every TTM record the engine produces for a discovered opportunity
with fully populated contributing quarters, each flow field is the sum of that
field over the 4 most recent available quarters (ranked by fiscal date
descending), and each stock field is the single most recent (rank-1) quarter's
value — never a sum or an average. -/
theorem ttm_flow_sums_stock_snapshot (w : Warehouse) (o : TTMOpportunity)
    (ho : o ∈ ttmExtract w) (q1 : FinFact) (rest : List FinFact)
    (hq : contributingQuarters w.factFinancials o = q1 :: rest)
    (hpop : ∀ q ∈ contributingQuarters w.factFinancials o, allFieldsSome q) :
    ((mkTTMRecord w.factFinancials o).ttmRevenue =
      some (((contributingQuarters w.factFinancials o).map fun q =>
        q.revenue.getD 0).sum) ∧
    (mkTTMRecord w.factFinancials o).ttmCostOfRevenue =
      some (((contributingQuarters w.factFinancials o).map fun q =>
        q.costOfRevenue.getD 0).sum) ∧
    (mkTTMRecord w.factFinancials o).ttmGrossProfit =
      some (((contributingQuarters w.factFinancials o).map fun q =>
        q.grossProfit.getD 0).sum) ∧
    (mkTTMRecord w.factFinancials o).ttmOperatingExpenses =
      some (((contributingQuarters w.factFinancials o).map fun q =>
        q.operatingExpenses.getD 0).sum) ∧
    (mkTTMRecord w.factFinancials o).ttmOperatingIncome =
      some (((contributingQuarters w.factFinancials o).map fun q =>
        q.operatingIncome.getD 0).sum) ∧
    (mkTTMRecord w.factFinancials o).ttmNetIncome =
      some (((contributingQuarters w.factFinancials o).map fun q =>
        q.netIncome.getD 0).sum) ∧
    (mkTTMRecord w.factFinancials o).ttmEps =
      some (((contributingQuarters w.factFinancials o).map fun q => q.eps.getD 0).sum) ∧
    (mkTTMRecord w.factFinancials o).ttmEpsDiluted =
      some (((contributingQuarters w.factFinancials o).map fun q =>
        q.epsDiluted.getD 0).sum) ∧
    (mkTTMRecord w.factFinancials o).ttmOperatingCashFlow =
      some (((contributingQuarters w.factFinancials o).map fun q =>
        q.operatingCashFlow.getD 0).sum) ∧
    (mkTTMRecord w.factFinancials o).ttmInvestingCashFlow =
      some (((contributingQuarters w.factFinancials o).map fun q =>
        q.investingCashFlow.getD 0).sum) ∧
    (mkTTMRecord w.factFinancials o).ttmFinancingCashFlow =
      some (((contributingQuarters w.factFinancials o).map fun q =>
        q.financingCashFlow.getD 0).sum) ∧
    (mkTTMRecord w.factFinancials o).ttmFreeCashFlow =
      some (((contributingQuarters w.factFinancials o).map fun q =>
        q.freeCashFlow.getD 0).sum) ∧
    (mkTTMRecord w.factFinancials o).ttmCapitalExpenditures =
      some (((contributingQuarters w.factFinancials o).map fun q =>
        q.capitalExpenditures.getD 0).sum) ∧
    (mkTTMRecord w.factFinancials o).ttmDividendsPaid =
      some (((contributingQuarters w.factFinancials o).map fun q =>
        q.dividendsPaid.getD 0).sum)) ∧
    ((mkTTMRecord w.factFinancials o).latestSharesOutstanding = q1.sharesOutstanding ∧
    (mkTTMRecord w.factFinancials o).latestTotalAssets = q1.totalAssets ∧
    (mkTTMRecord w.factFinancials o).latestCurrentAssets = q1.currentAssets ∧
    (mkTTMRecord w.factFinancials o).latestTotalLiabilities = q1.totalLiabilities ∧
    (mkTTMRecord w.factFinancials o).latestCurrentLiabilities = q1.currentLiabilities ∧
    (mkTTMRecord w.factFinancials o).latestTotalEquity = q1.totalEquity ∧
    (mkTTMRecord w.factFinancials o).latestCashAndEquivalents = q1.cashAndEquivalents ∧
    (mkTTMRecord w.factFinancials o).latestTotalDebt = q1.totalDebt ∧
    (mkTTMRecord w.factFinancials o).latestNetDebt = q1.netDebt) := by
  have hne : contributingQuarters w.factFinancials o ≠ [] := by
    rw [hq]
    exact List.cons_ne_nil _ _
  constructor
  · refine ⟨sqlSum_all_some _ _ hne fun q hq' => ((hpop q hq')).1,
      sqlSum_all_some _ _ hne fun q hq' => ((hpop q hq')).2.1,
      sqlSum_all_some _ _ hne fun q hq' => ((hpop q hq')).2.2.1,
      sqlSum_all_some _ _ hne fun q hq' => ((hpop q hq')).2.2.2.1,
      sqlSum_all_some _ _ hne fun q hq' => ((hpop q hq')).2.2.2.2.1,
      sqlSum_all_some _ _ hne fun q hq' => ((hpop q hq')).2.2.2.2.2.1,
      sqlSum_all_some _ _ hne fun q hq' => ((hpop q hq')).2.2.2.2.2.2.1,
      sqlSum_all_some _ _ hne fun q hq' => ((hpop q hq')).2.2.2.2.2.2.2.1,
      sqlSum_all_some _ _ hne fun q hq' => ((hpop q hq')).2.2.2.2.2.2.2.2.1,
      sqlSum_all_some _ _ hne fun q hq' => ((hpop q hq')).2.2.2.2.2.2.2.2.2.1,
      sqlSum_all_some _ _ hne fun q hq' => ((hpop q hq')).2.2.2.2.2.2.2.2.2.2.1,
      sqlSum_all_some _ _ hne fun q hq' => ((hpop q hq')).2.2.2.2.2.2.2.2.2.2.2.1,
      sqlSum_all_some _ _ hne fun q hq' => ((hpop q hq')).2.2.2.2.2.2.2.2.2.2.2.2.1,
      sqlSum_all_some _ _ hne fun q hq' => ((hpop q hq')).2.2.2.2.2.2.2.2.2.2.2.2.2.1⟩
  · refine ⟨?_, ?_, ?_, ?_, ?_, ?_, ?_, ?_, ?_⟩ <;>
      · show rank1Field (contributingQuarters w.factFinancials o) _ = _
        rw [hq]
        rfl

/-- C3 witness: in the 4-quarter warehouse (revenues 100/110/120/130 in fiscal
order, all accepted by day 400) the TTM record has `ttm_revenue = 460`
(Scenario A) and snapshots the newest quarter's 999 shares outstanding. -/
theorem ttm_flow_sums_stock_snapshot_spot :
    (mkTTMRecord exW4.factFinancials exOpp).ttmRevenue = some 460 ∧
    (mkTTMRecord exW4.factFinancials exOpp).latestSharesOutstanding = some 999 := by
  have hq : contributingQuarters exW4.factFinancials exOpp =
      exQuarter 4 370 .q4 130 999 ::
        [exQuarter 3 280 .q3 120 30, exQuarter 2 190 .q2 110 20,
         exQuarter 1 100 .q1 100 10] := by
    decide
  have hpop : ∀ q ∈ contributingQuarters exW4.factFinancials exOpp, allFieldsSome q := by
    rw [hq]
    intro q hmem
    simp only [List.mem_cons, List.not_mem_nil, or_false] at hmem
    rcases hmem with rfl | rfl | rfl | rfl <;> simp [allFieldsSome, exQuarter]
  have h := ttm_flow_sums_stock_snapshot exW4 exOpp (by decide) _ _ hq hpop
  constructor
  · rw [h.1.1, hq]
    norm_num [exQuarter]
  · rw [h.2.1, exQuarter]

/-- The extract retry loop when every remaining attempt fails: it walks the
whole range, sleeping the fixed delay after each non-final attempt, and
returns the final attempt's error. -/
theorem extractRetryLoop_all_fail (f : ℕ → Except String (List ℕ))
    (errs : ℕ → String) (maxR d : ℕ) (hf : ∀ i < maxR, f i = .error (errs i)) :
    ∀ cnt s, s + cnt = maxR → 0 < cnt →
      extractRetryLoop f maxR d (List.range' s cnt) =
        (.error (errs (maxR - 1)), failSeq d (List.range' s cnt)) := by
  intro cnt
  induction cnt with
  | zero => omega
  | succ c ih =>
    intro s hs _
    rw [List.range'_succ]
    simp only [extractRetryLoop, hf s (by omega)]
    by_cases hlast : s < maxR - 1
    · have hc : 0 < c := by omega
      rw [if_pos hlast, ih (s + 1) (by omega) hc]
      obtain ⟨c', rfl⟩ : ∃ c', c = c' + 1 := ⟨c - 1, by omega⟩
      simp [List.range'_succ, failSeq]
    · have hc0 : c = 0 := by omega
      subst hc0
      rw [if_neg hlast]
      have hs' : s = maxR - 1 := by omega
      subst hs'
      simp [failSeq, List.range']

/-- The extract retry loop when attempt `k` is the first to succeed: each
earlier attempt fails and is followed by one sleep, and attempt `k`'s records
are returned. -/
theorem extractRetryLoop_first_success (f : ℕ → Except String (List ℕ))
    (errs : ℕ → String) (maxR d k : ℕ) (recs : List ℕ)
    (hk : k < maxR) (hbefore : ∀ i < k, f i = .error (errs i)) (hok : f k = .ok recs) :
    ∀ cnt s, s + cnt = maxR → s ≤ k →
      extractRetryLoop f maxR d (List.range' s cnt) =
        (.ok recs, sleepAfterEach d (List.range' s (k - s)) ++ [.extractAttempt k]) := by
  intro cnt
  induction cnt with
  | zero => omega
  | succ c ih =>
    intro s hs hsk
    rw [List.range'_succ]
    by_cases hsk' : s = k
    · subst hsk'
      simp only [extractRetryLoop, hok]
      simp [sleepAfterEach, Nat.sub_self, List.range']
    · have hlt : s < k := lt_of_le_of_ne hsk hsk'
      simp only [extractRetryLoop, hbefore s hlt]
      rw [if_pos (by omega : s < maxR - 1), ih (s + 1) (by omega) (by omega)]
      have hks : k - s = (k - (s + 1)) + 1 := by omega
      rw [hks, List.range'_succ]
      simp [sleepAfterEach]

/-- C8: when `extract()` raises on every attempt, `run()` makes exactly
`max_retries` extract attempts with one fixed `retry_delay` sleep between
consecutive attempts and propagates the exhausting exception out of `run()`
(status `failed`); an attempt that succeeds ends the retry loop immediately
and its records are used as the run's extracted records. -/
theorem extract_retry_semantics (transformF : List ℕ → List Batch)
    (loadF : Batch → ℕ → Except String ℕ) (maxR d bs : ℕ) (hmr : 0 < maxR) :
    (∀ (f : ℕ → Except String (List ℕ)) (errs : ℕ → String),
      (∀ i < maxR, f i = .error (errs i)) →
      extractWithRetry f maxR d =
        (.error (errs (maxR - 1)), failSeq d (List.range maxR)) ∧
      (runModel f transformF loadF maxR d bs).raised = some (errs (maxR - 1)) ∧
      (runModel f transformF loadF maxR d bs).final.status = .failed ∧
      (runModel f transformF loadF maxR d bs).trace = failSeq d (List.range maxR)) ∧
    (∀ (f : ℕ → Except String (List ℕ)) (errs : ℕ → String) (k : ℕ) (recs : List ℕ),
      k < maxR → (∀ i < k, f i = .error (errs i)) → f k = .ok recs →
      extractWithRetry f maxR d =
        (.ok recs, sleepAfterEach d (List.range k) ++ [.extractAttempt k]) ∧
      (runModel f transformF loadF maxR d bs).final.recordsExtracted = recs.length) := by
  constructor
  · intro f errs hf
    have hloop : extractWithRetry f maxR d =
        (.error (errs (maxR - 1)), failSeq d (List.range maxR)) := by
      rw [extractWithRetry, List.range_eq_range']
      rw [extractRetryLoop_all_fail f errs maxR d hf maxR 0 (by omega) hmr]
    refine ⟨hloop, ?_, ?_, ?_⟩ <;> simp [runModel, hloop]
  · intro f errs k recs hk hb hok
    have hloop : extractWithRetry f maxR d =
        (.ok recs, sleepAfterEach d (List.range k) ++ [.extractAttempt k]) := by
      rw [extractWithRetry, List.range_eq_range']
      rw [extractRetryLoop_first_success f errs maxR d k recs hk hb hok maxR 0
        (by omega) (by omega)]
      rw [Nat.sub_zero, List.range_eq_range']
    refine ⟨hloop, ?_⟩
    rw [runModel, hloop]
    by_cases hre : recs.isEmpty
    · simp [hre]
    · simp only [hre, Bool.false_eq_true, if_false]
      split <;> rfl

/-- C8 witness: with `max_retries = 3`, `retry_delay = 5` and an
always-failing extract the run raises `"down"` after attempts 0, 1, 2 with two
sleeps; with success on attempt 2 the loop stops there and the 2 extracted
records are counted. -/
theorem extract_retry_semantics_spot :
    (runModel exExtractFailF exTransformF exLoadFailF 3 5 2).raised = some "down" ∧
    (runModel exExtractFailF exTransformF exLoadFailF 3 5 2).trace =
      [.extractAttempt 0, .sleepFor 5, .extractAttempt 1, .sleepFor 5,
       .extractAttempt 2] ∧
    extractWithRetry exExtractOkF 3 5 =
      (.ok [7, 8],
        [.extractAttempt 0, .sleepFor 5, .extractAttempt 1, .sleepFor 5,
         .extractAttempt 2]) ∧
    (runModel exExtractOkF exTransformF exLoadFailF 3 5 2).final.recordsExtracted = 2 := by
  have h1 := (extract_retry_semantics exTransformF exLoadFailF 3 5 2 (by norm_num)).1
    exExtractFailF (fun _ => "down") (fun _ _ => rfl)
  have h2 := (extract_retry_semantics exTransformF exLoadFailF 3 5 2 (by norm_num)).2
    exExtractOkF (fun _ => "down") 2 [7, 8] (by norm_num)
    (fun i hi => by interval_cases i <;> rfl) rfl
  refine ⟨h1.2.1, ?_, ?_, h2.2⟩
  · rw [h1.2.2.2]
    rfl
  · rw [h2.1]
    rfl

/-- The per-batch load retry loop succeeds when some remaining attempt
succeeds; all its attempt events carry this batch's index. -/
theorem loadRetryLoop_of_success (loadF : Batch → ℕ → Except String ℕ)
    (maxR d : ℕ) (b : Batch) (idx : ℕ) :
    ∀ cnt s, s + cnt = maxR → (∃ a, s ≤ a ∧ a < maxR ∧ ∃ n, loadF b a = .ok n) →
      ∃ n evs, loadRetryLoop loadF maxR d b idx (List.range' s cnt) = (.ok n, evs) ∧
        ∀ j a2, Ev.loadAttempt j a2 ∈ evs → j = idx := by
  intro cnt
  induction cnt with
  | zero =>
    intro s hs ⟨a, hsa, ha, _⟩
    omega
  | succ c ih =>
    intro s hs hex
    rw [List.range'_succ]
    cases hcase : loadF b s with
    | ok n =>
      refine ⟨n, [.loadAttempt idx s], ?_, ?_⟩
      · simp [loadRetryLoop, hcase]
      · intro j a2 hm
        simp only [List.mem_singleton] at hm
        cases hm
        rfl
    | error e =>
      obtain ⟨a, hsa, ha, n, hn⟩ := hex
      have hane : a ≠ s := fun h => by
        rw [h, hcase] at hn
        cases hn
      have hlast : s < maxR - 1 := by omega
      obtain ⟨n', evs', heq', hev'⟩ := ih (s + 1) (by omega) ⟨a, by omega, ha, n, hn⟩
      refine ⟨n', .loadAttempt idx s :: .sleepFor d :: evs', ?_, ?_⟩
      · simp [loadRetryLoop, hcase, if_pos hlast, heq']
      · intro j a2 hm
        simp only [List.mem_cons] at hm
        rcases hm with h | h | h
        · cases h
          rfl
        · cases h
        · exact hev' j a2 h

/-- The per-batch load retry loop when every attempt fails: it re-raises the
final attempt's error; all its attempt events carry this batch's index. -/
theorem loadRetryLoop_all_fail (loadF : Batch → ℕ → Except String ℕ)
    (errs : ℕ → String) (maxR d : ℕ) (b : Batch) (idx : ℕ)
    (hf : ∀ a < maxR, loadF b a = .error (errs a)) :
    ∀ cnt s, s + cnt = maxR → 0 < cnt →
      ∃ evs, loadRetryLoop loadF maxR d b idx (List.range' s cnt) =
        (.error (errs (maxR - 1)), evs) ∧
        ∀ j a2, Ev.loadAttempt j a2 ∈ evs → j = idx := by
  intro cnt
  induction cnt with
  | zero => omega
  | succ c ih =>
    intro s hs _
    rw [List.range'_succ]
    by_cases hlast : s < maxR - 1
    · have hc : 0 < c := by omega
      obtain ⟨evs', heq', hev'⟩ := ih (s + 1) (by omega) hc
      refine ⟨.loadAttempt idx s :: .sleepFor d :: evs', ?_, ?_⟩
      · simp [loadRetryLoop, hf s (by omega), if_pos hlast, heq']
      · intro j a2 hm
        simp only [List.mem_cons] at hm
        rcases hm with h | h | h
        · cases h
          rfl
        · cases h
        · exact hev' j a2 h
    · have hc0 : c = 0 := by omega
      subst hc0
      have hs' : s = maxR - 1 := by omega
      refine ⟨[.loadAttempt idx s], ?_, ?_⟩
      · rw [← hs']
        simp [loadRetryLoop, hf s (by omega), if_neg hlast, List.range']
      · intro j a2 hm
        simp only [List.mem_singleton] at hm
        cases hm
        rfl

/-- The batch walk aborts at the first batch whose retries are exhausted:
earlier batches each load once, the failing batch's error is recorded and
re-raised, and no batch after it is ever attempted. -/
theorem loadBatchesGo_abort (loadF : Batch → ℕ → Except String ℕ)
    (errs : ℕ → String) (maxR d : ℕ) (hmr : 0 < maxR) :
    ∀ (pre : List Batch) (bk : Batch) (post : List Batch) (idx total : ℕ),
      (∀ b ∈ pre, ∃ a, a < maxR ∧ ∃ n, loadF b a = .ok n) →
      (∀ a < maxR, loadF bk a = .error (errs a)) →
      ∃ evs, loadBatchesGo loadF maxR d (pre ++ bk :: post) idx total =
        (.error (errs (maxR - 1)), evs,
          ["Failed to load batch: " ++ errs (maxR - 1)]) ∧
        ∀ j a2, Ev.loadAttempt j a2 ∈ evs → j ≤ idx + pre.length := by
  intro pre
  induction pre with
  | nil =>
    intro bk post idx total _ hfail
    obtain ⟨evs, heq, hev⟩ :=
      loadRetryLoop_all_fail loadF errs maxR d bk idx hfail maxR 0 (by omega) hmr
    rw [← List.range_eq_range'] at heq
    refine ⟨evs, ?_, ?_⟩
    · simp only [List.nil_append, loadBatchesGo, heq]
    · intro j a2 hm
      simp [hev j a2 hm]
  | cons b pre ih =>
    intro bk post idx total hpre hfail
    obtain ⟨n, evs1, heq1, hev1⟩ :=
      loadRetryLoop_of_success loadF maxR d b idx maxR 0 (by omega)
        (by
          obtain ⟨a, ha, hn⟩ := hpre b (by simp)
          exact ⟨a, Nat.zero_le a, ha, hn⟩)
    rw [← List.range_eq_range'] at heq1
    obtain ⟨evs2, heq2, hev2⟩ := ih bk post (idx + 1) (total + n)
      (fun b2 hb2 => hpre b2 (by simp [hb2])) hfail
    refine ⟨evs1 ++ evs2, ?_, ?_⟩
    · simp only [List.cons_append, loadBatchesGo, heq1, List.append_eq, heq2]
    · intro j a2 hm
      rw [List.mem_append] at hm
      rcases hm with h | h
      · have := hev1 j a2 h
        simp [this]
      · have := hev2 j a2 h
        simp only [List.length_cons]
        omega

/-- C9: if a load batch still raises after exhausting its per-batch retries,
`run()` aborts: no later batch is attempted, the exception propagates out of
`run()`, the result status is `failed`, and the batch error (and the raised
error) are appended to the result's error list. -/
theorem load_batch_failure_aborts_run (extractF : ℕ → Except String (List ℕ))
    (transformF : List ℕ → List Batch) (loadF : Batch → ℕ → Except String ℕ)
    (maxR d bs : ℕ) (recs : List ℕ) (pre : List Batch) (bk : Batch)
    (post : List Batch) (errs : ℕ → String)
    (hmr : 0 < maxR) (hex : extractF 0 = .ok recs) (hne : ¬recs.isEmpty)
    (hsplit : mkBatches bs (transformF recs) = pre ++ bk :: post)
    (hpre : ∀ b ∈ pre, ∃ a, a < maxR ∧ ∃ n, loadF b a = .ok n)
    (hfail : ∀ a < maxR, loadF bk a = .error (errs a)) :
    (runModel extractF transformF loadF maxR d bs).raised = some (errs (maxR - 1)) ∧
    (runModel extractF transformF loadF maxR d bs).final.status = .failed ∧
    (runModel extractF transformF loadF maxR d bs).final.errors =
      ["Failed to load batch: " ++ errs (maxR - 1), errs (maxR - 1)] ∧
    ∀ j a, Ev.loadAttempt j a ∈ (runModel extractF transformF loadF maxR d bs).trace →
      j ≤ pre.length := by
  have hloop : extractWithRetry extractF maxR d = (.ok recs, [.extractAttempt 0]) := by
    rw [extractWithRetry, List.range_eq_range']
    obtain ⟨c, rfl⟩ : ∃ c, maxR = c + 1 := ⟨maxR - 1, by omega⟩
    rw [List.range'_succ]
    simp [extractRetryLoop, hex]
  obtain ⟨evs, hgo, hevb⟩ :=
    loadBatchesGo_abort loadF errs maxR d hmr pre bk post 0 0 hpre hfail
  rw [← hsplit] at hgo
  rw [runModel, hloop]
  simp only [hne, Bool.false_eq_true, if_false, hgo, List.nil_append,
    List.singleton_append, true_and, and_true]
  intro j a hm
  simp only [List.cons_append, List.nil_append, List.mem_cons] at hm
  rcases hm with h | h
  · cases h
  · have := hevb j a h
    omega

/-- C9 witness: extract yields `[1,2,3,4]`, the transform emits one staging
layer, `batch_size = 2` splits it into `[1,2]` and `[3,4]`, and every load of
the second batch fails: the run raises `"db down"`, ends `failed` with both
error strings recorded, and attempts no batch after index 1. -/
theorem load_batch_failure_aborts_run_spot :
    (runModel (fun _ => .ok [1, 2, 3, 4]) exTransformF exLoadFailF 3 5 2).raised =
      some "db down" ∧
    (runModel (fun _ => .ok [1, 2, 3, 4]) exTransformF exLoadFailF 3 5 2).final.status =
      .failed ∧
    (runModel (fun _ => .ok [1, 2, 3, 4]) exTransformF exLoadFailF 3 5 2).final.errors =
      ["Failed to load batch: db down", "db down"] ∧
    ∀ j a, Ev.loadAttempt j a ∈
      (runModel (fun _ => .ok [1, 2, 3, 4]) exTransformF exLoadFailF 3 5 2).trace →
      j ≤ 1 := by
  have h := load_batch_failure_aborts_run (fun _ => .ok [1, 2, 3, 4]) exTransformF
    exLoadFailF 3 5 2 [1, 2, 3, 4] [("staging", [1, 2])] ("staging", [3, 4]) []
    (fun _ => "db down") (by norm_num) rfl (by decide) (by decide)
    (by
      intro b hb
      simp only [List.mem_singleton] at hb
      subst hb
      exact ⟨0, by norm_num, 2, rfl⟩)
    (fun a _ => rfl)
  exact ⟨h.1, h.2.1, h.2.2.1, fun j a hm => by simpa using h.2.2.2 j a hm⟩

end FinSpec
